import Mathlib

/-!
Verification of the minicontratos ledger core against its specification.

The development shallow-embeds the TypeScript sources:
  * `src/unnamed/part_001` (crypto utilities: BLAKE3 content addressing,
    Ed25519 signing, credential encryption),
  * `src/src/lib/database.ts` (IndexedDB ledger store, query, contract
    view projector, integrity verifier, append path),
  * `.../src/lib/llm.ts` (span extraction from model output).

JavaScript runtime values are modelled by `Json`: objects are ordered
association lists, because key insertion order is observable through
`JSON.stringify`.  External libraries (the `idb` IndexedDB wrapper, the
Web Crypto API, `@noble/hashes` BLAKE3) are modelled by their documented
semantics; cryptographic primitives are idealized as injective functions
of their inputs (collision resistance / EUF-CMA as ideal functionality).
-/

set_option maxRecDepth 10000

namespace Minicontratos

/-- Lexicographic comparison of character lists by code point.  Models the
behaviour of `String.prototype.localeCompare` on the ASCII identifier and
ISO-8601 timestamp strings this code base compares. -/
def charListLeB : List Char → List Char → Bool
  | [], _ => true
  | _ :: _, [] => false
  | a :: as, b :: bs =>
    if a.toNat < b.toNat then true
    else if b.toNat < a.toNat then false
    else charListLeB as bs

/-- String comparison used for sorting (`localeCompare` model). -/
def strLeB (a b : String) : Bool := charListLeB a.data b.data

/-- JavaScript JSON values.  Objects keep field insertion order, as JS
objects do.  A number is mantissa times ten to `e10` (JSON grammar-level
view of JS numbers; all numbers in this repository are small integers,
`e10 = 0`). -/
inductive Json where
  | null : Json
  | bool (b : Bool) : Json
  | num (m : Int) (e10 : Int) : Json
  | str (s : String) : Json
  | arr (elems : List Json) : Json
  | obj (fields : List (String × Json)) : Json

mutual

/-- Structural equality on `Json`, order-sensitive for object fields. -/
def Json.beq : Json → Json → Bool
  | .null, .null => true
  | .bool a, .bool b => a == b
  | .num m1 e1, .num m2 e2 => m1 == m2 && e1 == e2
  | .str a, .str b => a == b
  | .arr xs, .arr ys => Json.beqList xs ys
  | .obj fs, .obj gs => Json.beqFields fs gs
  | _, _ => false
termination_by structural j => j

def Json.beqList : List Json → List Json → Bool
  | [], [] => true
  | x :: xs, y :: ys => Json.beq x y && Json.beqList xs ys
  | _, _ => false
termination_by structural l => l

def Json.beqFields : List (String × Json) → List (String × Json) → Bool
  | [], [] => true
  | (k1, v1) :: fs, (k2, v2) :: gs => k1 == k2 && Json.beq v1 v2 && Json.beqFields fs gs
  | _, _ => false
termination_by structural l => l

end

/-- Insert a key/value pair into a key-sorted field list. -/
def insertPair (p : String × Json) : List (String × Json) → List (String × Json)
  | [] => [p]
  | q :: qs => if charListLeB p.1.data q.1.data then p :: q :: qs else q :: insertPair p qs

/-- Sort object fields by key. -/
def sortPairs (l : List (String × Json)) : List (String × Json) := l.foldr insertPair []

mutual

/-- Canonical form of a `Json` value: object fields recursively sorted by
key.  Two values are structurally equal (as unordered maps) exactly when
their canonical forms are equal. -/
def canonJson : Json → Json
  | .arr xs => .arr (canonList xs)
  | .obj fs => .obj (sortPairs (canonFields fs))
  | j => j
termination_by structural j => j

def canonList : List Json → List Json
  | [] => []
  | x :: xs => canonJson x :: canonList xs
termination_by structural l => l

def canonFields : List (String × Json) → List (String × Json)
  | [] => []
  | (k, v) :: fs => (k, canonJson v) :: canonFields fs
termination_by structural l => l

end

/-- Structural equality of JSON values as unordered maps: equality of the
key-sorted canonical forms.  This is the sense in which two spans with
different field insertion orders are "structurally equal". -/
def structEqB (a b : Json) : Bool := Json.beq (canonJson a) (canonJson b)

/-- JavaScript truthiness of a JSON value. -/
def jsTruthy : Json → Bool
  | .null => false
  | .bool b => b
  | .num m _ => !(m == 0)
  | .str s => !(s == "")
  | .arr _ => true
  | .obj _ => true

/-- Property lookup on a JS object (`o[k]`); `none` models `undefined`. -/
def getKey (fs : List (String × Json)) (k : String) : Option Json :=
  (fs.find? (fun kv => kv.1 == k)).map (fun kv => kv.2)

/-- Property update as in a JS object spread with override
(`{...o, k: v}`): an existing key keeps its position, a new key is
appended at the end. -/
def setKey : List (String × Json) → String → Json → List (String × Json)
  | [], k, v => [(k, v)]
  | q :: qs, k, v => if q.1 = k then (k, v) :: qs else q :: setKey qs k v

/-- Property removal, as in rest-destructuring `{signature, ...rest}`. -/
def eraseKey (fs : List (String × Json)) (k : String) : List (String × Json) :=
  fs.filter (fun kv => kv.1 ≠ k)

/-- Enumerate list elements as JS index properties. -/
def indexedFieldsAux (i : Nat) : List Json → List (String × Json)
  | [] => []
  | x :: xs => (toString i, x) :: indexedFieldsAux (i + 1) xs

/-- Own-enumerable properties contributed by a JS object spread
(`{...v}`): objects give their fields, arrays and strings their indexed
elements, primitives none. -/
def spreadToObj : Json → List (String × Json)
  | .obj fs => fs
  | .arr xs => indexedFieldsAux 0 xs
  | .str s => indexedFieldsAux 0 (s.data.map (fun c => Json.str c.toString))
  | _ => []

/-- Hexadecimal digit character (`Number.prototype.toString(16)`). -/
def hexDigit (n : Nat) : Char :=
  if n < 10 then Char.ofNat (48 + n) else Char.ofNat (87 + n)

/-- Rendering of a JSON number.  All numbers appearing in this
repository's spans are integers (`e10 = 0`), rendered as JS renders them. -/
def numToString (m : Int) (e10 : Int) : String :=
  if e10 = 0 then toString m else toString m ++ "e" ++ toString e10

/-- String escaping of `JSON.stringify`: quote, backslash, and control
characters; all other characters pass through unescaped. -/
def escapeChar (c : Char) : String :=
  if c = '"' then "\\\""
  else if c = '\\' then "\\\\"
  else if c = '\n' then "\\n"
  else if c = '\r' then "\\r"
  else if c = '\t' then "\\t"
  else if c = '\x08' then "\\b"
  else if c = '\x0c' then "\\f"
  else if c.toNat < 32 then
    "\\u00" ++ (hexDigit (c.toNat / 16)).toString ++ (hexDigit (c.toNat % 16)).toString
  else c.toString

def jsonEscape (s : String) : String := String.join (s.data.map escapeChar)

mutual

/-- Compact `JSON.stringify`: object fields are serialized in insertion
order (this is what JS does; nothing here sorts keys). -/
def Json.stringify : Json → String
  | .null => "null"
  | .bool true => "true"
  | .bool false => "false"
  | .num m e => numToString m e
  | .str s => "\"" ++ jsonEscape s ++ "\""
  | .arr xs => "[" ++ Json.stringifyList xs ++ "]"
  | .obj fs => "\x7b" ++ Json.stringifyFields fs ++ "\x7d"
termination_by structural j => j

def Json.stringifyList : List Json → String
  | [] => ""
  | [x] => Json.stringify x
  | x :: y :: xs => Json.stringify x ++ "," ++ Json.stringifyList (y :: xs)
termination_by structural l => l

def Json.stringifyFields : List (String × Json) → String
  | [] => ""
  | [(k, v)] => "\"" ++ jsonEscape k ++ "\":" ++ Json.stringify v
  | (k, v) :: f :: fs =>
    "\"" ++ jsonEscape k ++ "\":" ++ Json.stringify v ++ "," ++ Json.stringifyFields (f :: fs)
termination_by structural l => l

end

/-- UTF-8 encoding of one character (`TextEncoder`). -/
def utf8EncodeChar (c : Char) : List Nat :=
  let v := c.toNat
  if v < 0x80 then [v]
  else if v < 0x800 then [0xC0 + v / 64, 0x80 + v % 64]
  else if v < 0x10000 then [0xE0 + v / 4096, 0x80 + v / 64 % 64, 0x80 + v % 64]
  else [0xF0 + v / 262144, 0x80 + v / 4096 % 64, 0x80 + v / 64 % 64, 0x80 + v % 64]

def utf8EncodeList : List Char → List Nat
  | [] => []
  | c :: cs => utf8EncodeChar c ++ utf8EncodeList cs

/-- `new TextEncoder().encode(s)` as a byte list. -/
def utf8Encode (s : String) : List Nat := utf8EncodeList s.data

/-- The `k` low-order base-256 digits of a natural number. -/
def natBytesPad : Nat → Nat → List Nat
  | 0, _ => []
  | k + 1, n => n % 256 :: natBytesPad k (n / 256)

/-- Model of the BLAKE3 digest from `@noble/hashes` (external library): a
fixed 32-byte digest, computed by folding the input bytes injectively
into a number and truncating to 256 bits — a deterministic compression
of the whole input, as an ideal hash. -/
def blake3Model (bs : List Nat) : List Nat :=
  natBytesPad 32 (bs.foldl (fun a b => (a * 257 + b % 256 + 1) % (2 ^ 256)) 1)

/-- `bytesToHex` from the crypto module: two lowercase hex digits per
byte. -/
def bytesToHex (bytes : List Nat) : String :=
  String.join (bytes.map (fun b => (hexDigit (b / 16 % 16)).toString ++ (hexDigit (b % 16)).toString))

/-- `calculateHash` from the crypto module: domain-prefixed BLAKE3 digest
of the UTF-8 bytes. -/
def calculateHash (data : String) : String :=
  "blake3:" ++ bytesToHex (blake3Model (utf8Encode data))

/-- The clone built by `calculateSpanHash`'s first statement:
`{...span, this: {...span.this, hash: ''}, confirmed_by: span.confirmed_by
? {...span.confirmed_by, signature: ''} : undefined}`.  A falsy
`confirmed_by` yields an `undefined` property value, which
`JSON.stringify` omits; we model the omission by erasing the key, which
serializes identically. -/
def spanClone (fields : List (String × Json)) : List (String × Json) :=
  let f1 :=
    setKey fields "this"
      (Json.obj (setKey (spreadToObj ((getKey fields "this").getD Json.null)) "hash" (Json.str "")))
  match getKey fields "confirmed_by" with
  | none => f1
  | some cb =>
    if jsTruthy cb then
      setKey f1 "confirmed_by" (Json.obj (setKey (spreadToObj cb) "signature" (Json.str "")))
    else eraseKey f1 "confirmed_by"

/-- `calculateSpanHash`'s second statement: if the clone's
`confirmed_by?.signature === ''`, destructure the signature field away. -/
def dropEmptySignature (fields : List (String × Json)) : List (String × Json) :=
  match getKey fields "confirmed_by" with
  | some (Json.obj cs) =>
    (match getKey cs "signature" with
     | some (Json.str "") => setKey fields "confirmed_by" (Json.obj (eraseKey cs "signature"))
     | _ => fields)
  | _ => fields

/-- The object actually serialized and hashed by `calculateSpanHash`. -/
def spanForHashing (fields : List (String × Json)) : List (String × Json) :=
  dropEmptySignature (spanClone fields)

/-- `calculateSpanHash` from the crypto module: hash of the compact JSON
serialization of the span with `this.hash` blanked and
`confirmed_by.signature` removed.  The argument is the span's field list
(a JS object). -/
def calculateSpanHash (fields : List (String × Json)) : String :=
  calculateHash (Json.stringify (Json.obj (spanForHashing fields)))

/-! ## Ed25519 signing model (Web Crypto API, external)

A `CryptoKey` is modelled as a reference to one half of a numbered
keypair.  Ed25519 signing is deterministic, so the ideal signature is an
injective function of the keypair and the message; verification with the
matching public key succeeds exactly on that signature (EUF-CMA as ideal
functionality).  Web Crypto enforces key usages: signing with a public
key and verifying with a private key both throw `InvalidAccessError`. -/

inductive CryptoKeyRef where
  | publicKey (kp : Nat)
  | privateKey (kp : Nat)
deriving DecidableEq

/-- Ideal deterministic Ed25519 signature (hex part) of a message under
keypair `kp`. -/
def sigHexModel (kp : Nat) (data : String) : String :=
  bytesToHex (blake3Model (utf8Encode (toString kp ++ ":" ++ data)))

/-- `sign` from the crypto module: domain-prefixed signature over the
UTF-8 bytes of `data`; `none` models the `InvalidAccessError` thrown when
the key is not a private signing key. -/
def sign (data : String) : CryptoKeyRef → Option String
  | .privateKey kp => some ("ed25519:" ++ sigHexModel kp data)
  | .publicKey _ => none

/-- Strip the `ed25519:` prefix if present (as `verify` does). -/
def stripSigScheme (sig : String) : String :=
  if ("ed25519:").data.isPrefixOf sig.data then String.mk (sig.data.drop 8) else sig

/-- `verify` from the crypto module.  Its body wraps `crypto.subtle.verify`
in try/catch and returns `false` on any exception, so verifying with a
non-public key (usage `sign` only) yields `false` rather than an error. -/
def verify (data sig : String) : CryptoKeyRef → Bool
  | .publicKey kp => stripSigScheme sig == sigHexModel kp data
  | .privateKey _ => false

/-! ## Typed span and contract records (`types/span.ts`, `types/contract.ts`) -/

structure SpanHash where
  hash : String
  version : String
deriving DecidableEq

structure SpanConfirmation where
  signature : String
  domain : String
  timestamp : String
  signer_id : String
deriving DecidableEq

/-- `SpanBody`; `input`/`output`/`rules`/`metadata` are untyped JS values
(`none` models an absent / `undefined` property). -/
structure SpanBody where
  action : String
  input : Option Json
  output : Option Json
  rules : Option Json
  metadata : Option Json

structure Span where
  id : String
  trace_id : String
  parent_id : Option String
  type : String
  entity : String
  body : SpanBody
  started_at : String
  completed_at : Option String
  duration_ms : Option Int
  this : SpanHash
  confirmed_by : Option SpanConfirmation

def SpanBody.toJson (b : SpanBody) : Json :=
  Json.obj
    ([("action", Json.str b.action)]
      ++ (match b.input with | some v => [("input", v)] | none => [])
      ++ (match b.output with | some v => [("output", v)] | none => [])
      ++ (match b.rules with | some v => [("rules", v)] | none => [])
      ++ (match b.metadata with | some v => [("metadata", v)] | none => []))

/-- The JS object underlying a typed span, with the field insertion order
produced by the span builders in `database.ts` (`createContractSpan`,
`createObligationSpan`, `createUserRegistrationSpan`) and by
`appendToLedger`, which assigns `confirmed_by` last.  Absent optional
properties simply do not appear (and would be omitted by
`JSON.stringify` anyway). -/
def Span.toJson (s : Span) : List (String × Json) :=
  [("id", Json.str s.id), ("trace_id", Json.str s.trace_id)]
    ++ (match s.parent_id with | some p => [("parent_id", Json.str p)] | none => [])
    ++ [("type", Json.str s.type), ("entity", Json.str s.entity),
        ("body", s.body.toJson), ("started_at", Json.str s.started_at)]
    ++ (match s.completed_at with | some c => [("completed_at", Json.str c)] | none => [])
    ++ (match s.duration_ms with | some d => [("duration_ms", Json.num d 0)] | none => [])
    ++ [("this", Json.obj [("hash", Json.str s.this.hash), ("version", Json.str s.this.version)])]
    ++ (match s.confirmed_by with
        | some cb =>
          [("confirmed_by", Json.obj
            [("signature", Json.str cb.signature), ("domain", Json.str cb.domain),
             ("timestamp", Json.str cb.timestamp), ("signer_id", Json.str cb.signer_id)])]
        | none => [])

/-- `signSpan` from the crypto module: populate `this.hash` if empty, then
sign the hash string (not the whole span).  Returns the (possibly
hash-filled) span together with the signature; `none` models the
exception when the key cannot sign. -/
def signSpan (s : Span) (key : CryptoKeyRef) : Option (Span × String) :=
  let s' :=
    if s.this.hash = "" then
      { s with this := { s.this with hash := calculateSpanHash s.toJson } }
    else s
  match sign s'.this.hash key with
  | some sig => some (s', sig)
  | none => none

/-- `verifySpan` from the crypto module: `false` when there is no
signature, when the recomputed hash differs from `this.hash`, or when
signature verification fails. -/
def verifySpan (s : Span) (key : CryptoKeyRef) : Bool :=
  match s.confirmed_by with
  | none => false
  | some cb =>
    if cb.signature = "" then false
    else if s.this.hash ≠ calculateSpanHash s.toJson then false
    else verify s.this.hash cb.signature key

inductive ContractStatus where
  | draft
  | active
  | completed
  | cancelled
deriving DecidableEq

/-- The materialized contract view.  `title` is whatever JS value
`extractContractTitle` produced (typed `string` but populated from
untyped input). -/
structure Contract where
  id : String
  title : Json
  description : Option Json
  parties : List Json
  status : ContractStatus
  created_at : String
  updated_at : String
  completed_at : Option String
  spans : List String
  metadata : Option Json

/-- The local identity record: a signing capability bound to a user id
(`public_key` is not consulted by any code under verification). -/
structure Identity where
  user_id : String
  private_key_handle : CryptoKeyRef

/-! ## Ledger store and query (`database.ts`)

The IndexedDB `spans` object store is modelled as a list of spans in
insertion order; the secondary indices are derived views of it, which is
how IndexedDB indices behave observably. -/

theorem charListLeB_total (a b : List Char) :
    charListLeB a b = true ∨ charListLeB b a = true := by
  induction a generalizing b with
  | nil => left; rfl
  | cons x xs ih =>
    cases b with
    | nil => right; rfl
    | cons y ys =>
      by_cases h1 : x.toNat < y.toNat
      · left; simp [charListLeB, h1]
      · by_cases h2 : y.toNat < x.toNat
        · right; simp [charListLeB, h2]
        · rcases ih ys with h | h
          · left; simp [charListLeB, h1, h2, h]
          · right; simp [charListLeB, h1, h2, h]

theorem charListLeB_trans (a b c : List Char) (h1 : charListLeB a b = true)
    (h2 : charListLeB b c = true) : charListLeB a c = true := by
  induction a generalizing b c with
  | nil => rfl
  | cons x xs ih =>
    cases b with
    | nil => simp [charListLeB] at h1
    | cons y ys =>
      cases c with
      | nil => simp [charListLeB] at h2
      | cons z zs =>
        simp only [charListLeB] at h1 h2 ⊢
        by_cases hxy : x.toNat < y.toNat
        · by_cases hyz : y.toNat < z.toNat
          · simp [show x.toNat < z.toNat by omega]
          · by_cases hzy : z.toNat < y.toNat
            · simp [hyz, hzy] at h2
            · simp [show x.toNat < z.toNat by omega]
        · by_cases hyx : y.toNat < x.toNat
          · simp [hxy, hyx] at h1
          · by_cases hyz : y.toNat < z.toNat
            · simp [show x.toNat < z.toNat by omega]
            · by_cases hzy : z.toNat < y.toNat
              · simp [hyz, hzy] at h2
              · have hxz : ¬ x.toNat < z.toNat := by omega
                have hzx : ¬ z.toNat < x.toNat := by omega
                simp only [hxy, hyx, if_neg, if_false] at h1
                simp only [hyz, hzy, if_neg, if_false] at h2
                simp [hxz, hzx, ih ys zs h1 h2]

/-- The sort order of `querySpans`: `started_at` descending (the JS
comparator `(a, b) => b.started_at.localeCompare(a.started_at)`). -/
def spanDescRel (a b : Span) : Prop := strLeB b.started_at a.started_at = true

instance : DecidableRel spanDescRel := fun a b =>
  instDecidableEqBool (strLeB b.started_at a.started_at) true

instance : IsTotal Span spanDescRel :=
  ⟨fun a b => charListLeB_total b.started_at.data a.started_at.data⟩

instance : IsTrans Span spanDescRel :=
  ⟨fun _ b _ hab hbc =>
    charListLeB_trans _ b.started_at.data _ hbc hab⟩

/-- `SpanFilter` (`from`/`to` are Lean keywords, hence the underscores). -/
structure SpanFilter where
  trace_id : Option String := none
  type : Option String := none
  entity : Option String := none
  user_id : Option String := none
  from_ : Option String := none
  to_ : Option String := none
  limit : Option Nat := none

/-- JS truthiness of an optional string filter field: `if (filter.x)`
treats the empty string like an absent field. -/
def optStr : Option String → Option String
  | some "" => none
  | o => o

/-- `querySpans`: pick the record set from the first available index
among `trace_id`, `type`, `entity` (else scan everything), then filter by
`user_id`/`from`/`to`, sort by `started_at` descending, and apply
`limit` (`limit: 0` is falsy and means no truncation). -/
def querySpans (store : List Span) (f : SpanFilter) : List Span :=
  let spans : List Span :=
    match optStr f.trace_id with
    | some t => store.filter (fun (s : Span) => s.trace_id == t)
    | none =>
      match optStr f.type with
      | some ty => store.filter (fun (s : Span) => s.type == ty)
      | none =>
        match optStr f.entity with
        | some e => store.filter (fun (s : Span) => s.entity == e)
        | none => store
  let f1 : List Span :=
    match optStr f.user_id with
    | some u =>
      spans.filter (fun (s : Span) => match s.confirmed_by with
        | some cb => cb.signer_id == u
        | none => false)
    | none => spans
  let f2 : List Span :=
    match optStr f.from_ with
    | some fr => f1.filter (fun (s : Span) => strLeB fr s.started_at)
    | none => f1
  let f3 : List Span :=
    match optStr f.to_ with
    | some t => f2.filter (fun (s : Span) => strLeB s.started_at t)
    | none => f2
  let sorted := f3.insertionSort spanDescRel
  match f.limit with
  | some n => if n = 0 then sorted else sorted.take n
  | none => sorted

def getSpansByTrace (store : List Span) (traceId : String) : List Span :=
  querySpans store { trace_id := some traceId }

/-- The `by-trace` secondary index, as a derived view of the store. -/
def byTrace (store : List Span) (t : String) : List Span :=
  store.filter (fun s => s.trace_id == t)

/-- The `by-type` secondary index. -/
def byType (store : List Span) (t : String) : List Span :=
  store.filter (fun s => s.type == t)

/-- The `by-entity` secondary index. -/
def byEntity (store : List Span) (e : String) : List Span :=
  store.filter (fun s => s.entity == e)

/-- The `by-time` secondary index (keyed on `started_at`). -/
def byTime (store : List Span) (t : String) : List Span :=
  store.filter (fun s => s.started_at == t)

/-- The `by-user` secondary index (keyed on `confirmed_by.signer_id`;
records without the key path do not appear in the index). -/
def byUser (store : List Span) (u : String) : List Span :=
  store.filter (fun s => match s.confirmed_by with
    | some cb => cb.signer_id == u
    | none => false)

/-- `appendSpan` delegates to IndexedDB `add` (through the external `idb`
wrapper): adding a record whose key already exists fails with a
`ConstraintError` and aborts the transaction, leaving the store
untouched; otherwise the record is stored. -/
def appendSpan (store : List Span) (s : Span) : Except String (List Span) :=
  if store.any (fun t => t.id == s.id) then Except.error "ConstraintError"
  else Except.ok (store ++ [s])

/-- The store contents after an `appendSpan` call, successful or not
(a failed `add` leaves the store as it was). -/
def appendSpanState (store : List Span) (s : Span) : List Span × Option String :=
  match appendSpan store s with
  | .ok st => (st, none)
  | .error e => (store, some e)

/-- `getContract`: primary-key lookup in the `contracts` store. -/
def getContract (contracts : List Contract) (id : String) : Option Contract :=
  contracts.find? (fun c => c.id == id)

/-- `saveContract` delegates to IndexedDB `put`: upsert by key. -/
def saveContract (contracts : List Contract) (c : Contract) : List Contract :=
  if contracts.any (fun d => d.id == c.id) then
    contracts.map (fun d => if d.id == c.id then c else d)
  else contracts ++ [c]

/-! ## Contract view projector (`database.ts`) -/

/-- How a JS value renders inside `Array.prototype.join` (null and
undefined render empty).  Nested arrays/objects do not occur in party
records; their rendering is approximated. -/
def jsJoinElem : Json → String
  | .str s => s
  | .num m e => numToString m e
  | .bool true => "true"
  | .bool false => "false"
  | .null => ""
  | .arr _ => ""
  | .obj _ => "[object Object]"

/-- `Object.values(v)` for a truthy JS value. -/
def jsObjectValues (j : Json) : List Json :=
  (spreadToObj j).map (fun kv => kv.2)

/-- `p.name` of a party record, as rendered in the joined title
(`undefined` renders empty). -/
def partyName (p : Json) : String :=
  match p with
  | .obj fs =>
    match getKey fs "name" with
    | some v => jsJoinElem v
    | none => ""
  | _ => ""

/-- `extractContractTitle`: explicit truthy `input.title`, else a title
synthesized from the party names, else a prefixed slice of the span id. -/
def extractContractTitle (s : Span) : Json :=
  let fallbackParties : List (String × Json) → Json := fun fs =>
    match getKey fs "parties" with
    | some p =>
      if jsTruthy p then
        Json.str ("Contrato entre " ++ String.intercalate (" e ") ((jsObjectValues p).map partyName))
      else Json.str ("Contrato " ++ String.mk (s.id.data.take 8))
    | none => Json.str ("Contrato " ++ String.mk (s.id.data.take 8))
  match s.body.input with
  | some (.obj fs) =>
    (match getKey fs "title" with
     | some t => if jsTruthy t then t else fallbackParties fs
     | none => fallbackParties fs)
  | _ => Json.str ("Contrato " ++ String.mk (s.id.data.take 8))

/-- `extractContractDescription`: `input?.description ||
metadata?.description` (the second operand is returned as-is when the
first is falsy). -/
def extractContractDescription (s : Span) : Option Json :=
  let d1 : Option Json :=
    match s.body.input with
    | some (.obj fs) => getKey fs "description"
    | _ => none
  let d2 : Option Json :=
    match s.body.metadata with
    | some (.obj fs) => getKey fs "description"
    | _ => none
  match d1 with
  | some v => if jsTruthy v then some v else d2
  | none => d2

/-- The parties of a new contract record:
`creationSpan.body.input?.parties ? Object.values(...) : []`. -/
def extractParties (s : Span) : List Json :=
  match s.body.input with
  | some (.obj fs) =>
    (match getKey fs "parties" with
     | some p => if jsTruthy p then jsObjectValues p else []
     | none => [])
  | _ => []

/-- `updateContractFromSpans`, as a pure function of the trace's fetched
spans and the stored contract record (if any).  Returns the record that
gets saved, or `none` when the function returns early without saving
(no spans, or no `contract.created` span).  Note the two branches: a
record created from scratch always gets `status: 'active'`; only the
update branch consults `contract.cancelled` / `contract.completed`
spans. -/
def updateContractFromSpans (spans : List Span) (existing : Option Contract)
    (traceId now : String) : Option Contract :=
  if spans.isEmpty then none
  else
    match spans.find? (fun s => s.type == "contract.created") with
    | none => none
    | some creationSpan =>
      match existing with
      | none =>
        some
          { id := traceId
            title := extractContractTitle creationSpan
            description := extractContractDescription creationSpan
            parties := extractParties creationSpan
            status := ContractStatus.active
            created_at := creationSpan.started_at
            updated_at := now
            completed_at := none
            spans := spans.map (fun s => s.id)
            metadata := creationSpan.body.metadata }
      | some c =>
        let base := { c with updated_at := now, spans := spans.map (fun s => s.id) }
        match spans.find? (fun s => s.type == "contract.cancelled") with
        | some cs => some { base with status := ContractStatus.cancelled, completed_at := cs.completed_at }
        | none =>
          match spans.find? (fun s => s.type == "contract.completed") with
          | some cps => some { base with status := ContractStatus.completed, completed_at := cps.completed_at }
          | none => some base

/-! ## Integrity verifier (`database.ts`) -/

structure VError where
  span_id : String
  error : String
deriving DecidableEq

structure VerifyReport where
  valid : Bool
  total : Nat
  errors : List VError
deriving DecidableEq

/-- The hash re-check of `verifyLedger` for one span. -/
def hashCheckErrors (s : Span) : List VError :=
  let ch := calculateSpanHash s.toJson
  if s.this.hash ≠ ch then
    [⟨s.id, "Hash mismatch: expected " ++ s.this.hash ++ ", got " ++ ch⟩]
  else []

/-- The signature check of `verifyLedger` for one span: only performed
when the span carries a (truthy) signature and a local identity exists;
the code hands `identity.private_key_handle` (cast with `as any`) to
`verifySpan` as the verification key.  The catch-branch of the source is
unreachable here because `verify` already converts exceptions to
`false`. -/
def sigCheckErrors (identity : Option Identity) (s : Span) : List VError :=
  match s.confirmed_by with
  | some cb =>
    if cb.signature ≠ "" then
      match identity with
      | some i =>
        if verifySpan s i.private_key_handle then [] else [⟨s.id, "Invalid signature"⟩]
      | none => []
    else []
  | none => []

/-- The parent-reference check of `verifyLedger` for one span, against
the spans of the same trace group. -/
def parentCheckErrors (traceSpans : List Span) (s : Span) : List VError :=
  match s.parent_id with
  | some pid =>
    if pid ≠ "" then
      if traceSpans.any (fun t => t.id == pid) then []
      else [⟨s.id, "Parent span " ++ pid ++ " not found"⟩]
    else []
  | none => []

/-- All errors `verifyLedger` records for one span. -/
def spanCheckErrors (identity : Option Identity) (traceSpans : List Span) (s : Span) :
    List VError :=
  hashCheckErrors s ++ sigCheckErrors identity s ++ parentCheckErrors traceSpans s

/-- `verifyLedger`: for every contract record, fetch its trace's spans
and accumulate the hash, signature and parent errors of every span; the
report carries the total number of spans examined and `valid` iff no
error was collected.  `contracts` is the list `getAllContracts()`
returned; `identity` is the stored local identity. -/
def verifyLedger (contracts : List Contract) (store : List Span)
    (identity : Option Identity) : VerifyReport :=
  let acc :=
    contracts.foldl
      (fun (acc : List VError × Nat) c =>
        let spans := getSpansByTrace store c.id
        (spans.foldl (fun es s => es ++ spanCheckErrors identity spans s) acc.1,
         acc.2 + spans.length))
      ([], 0)
  ⟨acc.1.isEmpty, acc.2, acc.1⟩

/-! ## Ledger append path (`database.ts`, ledger section) -/

structure LedgerState where
  spans : List Span
  contracts : List Contract

/-- Steps 3–4 of `appendToLedger`: append the (hash-filled, possibly
signed) span through `appendSpan`, then re-project the contract view when
the span's entity is `minicontrato`.  The stored span is returned
alongside the new state. -/
def persistAndProject (s2 : Span) (now : String) (st : LedgerState) :
    Except String (LedgerState × Span) :=
  match appendSpan st.spans s2 with
  | .error e => .error e
  | .ok spans' =>
    if s2.entity == "minicontrato" then
      match updateContractFromSpans (getSpansByTrace spans' s2.trace_id)
          (getContract st.contracts s2.trace_id) s2.trace_id now with
      | some c => .ok ({ spans := spans', contracts := saveContract st.contracts c }, s2)
      | none => .ok ({ spans := spans', contracts := st.contracts }, s2)
    else .ok ({ spans := spans', contracts := st.contracts }, s2)

/-- `appendToLedger`: fill `this.hash` if empty (step 1), sign (only)
when a local identity exists and the span has no `confirmed_by` yet
(step 2), then append and re-project (steps 3–4).  Errors of the store
(duplicate id) or of signing propagate; `now` models the wall clock read
by `new Date()`. -/
def appendToLedger (s : Span) (identity : Option Identity) (now : String)
    (st : LedgerState) : Except String (LedgerState × Span) :=
  let s1 :=
    if s.this.hash = "" then
      { s with this := { s.this with hash := calculateSpanHash s.toJson } }
    else s
  match identity, s1.confirmed_by with
  | some i, none =>
    (match signSpan s1 i.private_key_handle with
     | some (s1', sig) =>
       persistAndProject
         { s1' with confirmed_by := some ⟨sig, "minicontratos.local", now, i.user_id⟩ } now st
     | none => Except.error "InvalidAccessError")
  | _, _ => persistAndProject s1 now st

/-! ## Span extraction from model output (`llm.ts`)

`extractSpansFromResponse` scans for fenced blocks with the regex
`/```json\s*([\s\S]*?)\s*```/g` and parses each block with `JSON.parse`.
The scanner below reproduces the regex's observable behaviour: a match
starts at each occurrence of the literal ```` ```json ````, the lazy
group ends at the next ```` ``` ````, and the `\s*` anchors trim the
captured text; scanning resumes after the closing fence. -/

/-- JS regex `\s` (ASCII part; the Unicode space classes do not occur in
the inputs considered here). -/
def isRegexWs (c : Char) : Bool :=
  c = ' ' || c = '\t' || c = '\n' || c = '\r' || c = '\x0c' || c = '\x0b'

/-- Split a character list at the first occurrence of `pat`:
`some (before, after)` with `text = before ++ pat ++ after`. -/
def splitFirst (pat : List Char) : List Char → Option (List Char × List Char)
  | [] => none
  | c :: rest =>
    if pat.isPrefixOf (c :: rest) then some ([], (c :: rest).drop pat.length)
    else
      match splitFirst pat rest with
      | some (pre, post) => some (c :: pre, post)
      | none => none

def trimTrailingWs (l : List Char) : List Char :=
  (l.reverse.dropWhile isRegexWs).reverse

def jsonBlocksAux : Nat → List Char → List String
  | 0, _ => []
  | fuel + 1, text =>
    match splitFirst ("```json").data text with
    | none => []
    | some (_, rest) =>
      let r1 := rest.dropWhile isRegexWs
      match splitFirst ("```").data r1 with
      | none => []
      | some (pre, post) => String.mk (trimTrailingWs pre) :: jsonBlocksAux fuel post

/-- The captures of `response.matchAll(jsonBlockRegex)`. -/
def jsonBlocks (s : String) : List String := jsonBlocksAux s.data.length s.data

/-! A `JSON.parse` model.  Fuel-parametrized recursive descent over the
JSON grammar; the fuel (input length plus two) always exceeds the
nesting depth, so fuel exhaustion never occurs on real input. -/

def isJsonWs (c : Char) : Bool := c = ' ' || c = '\t' || c = '\n' || c = '\r'

def skipWs (l : List Char) : List Char := l.dropWhile isJsonWs

def hexValChar (c : Char) : Option Nat :=
  let n := c.toNat
  if 48 ≤ n ∧ n ≤ 57 then some (n - 48)
  else if 97 ≤ n ∧ n ≤ 102 then some (n - 87)
  else if 65 ≤ n ∧ n ≤ 70 then some (n - 55)
  else none

/-- Parse the body of a JSON string (after the opening quote), handling
the JSON escapes.  Surrogate pairs in `\uXXXX` escapes are combined; a
lone surrogate (which a JS engine would keep as a malformed UTF-16 unit)
is rejected, as it has no scalar-value representation. -/
def parseStringBody : List Char → Option (List Char × List Char)
  | [] => none
  | '"' :: rest => some ([], rest)
  | '\\' :: rest =>
    match rest with
    | 'u' :: h1 :: h2 :: h3 :: h4 :: rest2 =>
      (match hexValChar h1, hexValChar h2, hexValChar h3, hexValChar h4 with
       | some a, some b, some c, some d =>
         let n := ((a * 16 + b) * 16 + c) * 16 + d
         if 0xD800 ≤ n ∧ n < 0xDC00 then
           match rest2 with
           | '\\' :: 'u' :: g1 :: g2 :: g3 :: g4 :: rest3 =>
             (match hexValChar g1, hexValChar g2, hexValChar g3, hexValChar g4 with
              | some a2, some b2, some c2, some d2 =>
                let m := ((a2 * 16 + b2) * 16 + c2) * 16 + d2
                if 0xDC00 ≤ m ∧ m < 0xE000 then
                  (parseStringBody rest3).map
                    (fun p => (Char.ofNat (0x10000 + (n - 0xD800) * 1024 + (m - 0xDC00)) :: p.1, p.2))
                else none
              | _, _, _, _ => none)
           | _ => none
         else if 0xDC00 ≤ n ∧ n < 0xE000 then none
         else (parseStringBody rest2).map (fun p => (Char.ofNat n :: p.1, p.2))
       | _, _, _, _ => none)
    | '"' :: rest2 => (parseStringBody rest2).map (fun p => ('"' :: p.1, p.2))
    | '\\' :: rest2 => (parseStringBody rest2).map (fun p => ('\\' :: p.1, p.2))
    | '/' :: rest2 => (parseStringBody rest2).map (fun p => ('/' :: p.1, p.2))
    | 'b' :: rest2 => (parseStringBody rest2).map (fun p => ('\x08' :: p.1, p.2))
    | 'f' :: rest2 => (parseStringBody rest2).map (fun p => ('\x0c' :: p.1, p.2))
    | 'n' :: rest2 => (parseStringBody rest2).map (fun p => ('\n' :: p.1, p.2))
    | 'r' :: rest2 => (parseStringBody rest2).map (fun p => ('\r' :: p.1, p.2))
    | 't' :: rest2 => (parseStringBody rest2).map (fun p => ('\t' :: p.1, p.2))
    | _ => none
  | c :: rest =>
    if c.toNat < 32 then none
    else (parseStringBody rest).map (fun p => (c :: p.1, p.2))

def isDigitChar (c : Char) : Bool := 48 ≤ c.toNat && c.toNat ≤ 57

def digitsToNat (ds : List Char) : Nat :=
  ds.foldl (fun a c => a * 10 + (c.toNat - 48)) 0

/-- Parse a JSON number (strict grammar: no leading zeros, mandatory
digits around the decimal point). -/
def parseNumber (l : List Char) : Option (Json × List Char) :=
  let (neg, l1) :=
    match l with
    | '-' :: r => (true, r)
    | _ => (false, l)
  let intDigits := l1.takeWhile isDigitChar
  if intDigits.isEmpty then none
  else if intDigits.length > 1 ∧ intDigits.headD '0' = '0' then none
  else
    let l2 := l1.drop intDigits.length
    let (fracDigits, l3) :=
      match l2 with
      | '.' :: r =>
        let fd := r.takeWhile isDigitChar
        (fd, r.drop fd.length)
      | _ => ([], l2)
    if (match l2 with | '.' :: _ => fracDigits.isEmpty | _ => false) then none
    else
      let mantissa : Int :=
        (if neg then -1 else 1) * Int.ofNat (digitsToNat (intDigits ++ fracDigits))
      let e10base : Int := -(Int.ofNat fracDigits.length)
      match l3 with
      | 'e' :: r | 'E' :: r =>
        let (eneg, r1) :=
          match r with
          | '-' :: r2 => (true, r2)
          | '+' :: r2 => (false, r2)
          | _ => (false, r)
        let eds := r1.takeWhile isDigitChar
        if eds.isEmpty then none
        else
          let e : Int := (if eneg then -1 else 1) * Int.ofNat (digitsToNat eds)
          some (Json.num mantissa (e10base + e), r1.drop eds.length)
      | _ => some (Json.num mantissa e10base, l3)

mutual

def parseValue : Nat → List Char → Option (Json × List Char)
  | 0, _ => none
  | fuel + 1, l =>
    match skipWs l with
    | '"' :: rest => (parseStringBody rest).map (fun p => (Json.str (String.mk p.1), p.2))
    | '[' :: rest =>
      (match skipWs rest with
       | ']' :: r => some (Json.arr [], r)
       | l' => (parseArrayLoop fuel l').map (fun p => (Json.arr p.1, p.2)))
    | '\x7b' :: rest =>
      (match skipWs rest with
       | '\x7d' :: r => some (Json.obj [], r)
       | l' => (parseObjLoop fuel l').map (fun p => (Json.obj p.1, p.2)))
    | 't' :: 'r' :: 'u' :: 'e' :: rest => some (Json.bool true, rest)
    | 'f' :: 'a' :: 'l' :: 's' :: 'e' :: rest => some (Json.bool false, rest)
    | 'n' :: 'u' :: 'l' :: 'l' :: rest => some (Json.null, rest)
    | l' => parseNumber l'
termination_by structural fuel => fuel

def parseArrayLoop : Nat → List Char → Option (List Json × List Char)
  | 0, _ => none
  | fuel + 1, l =>
    match parseValue fuel l with
    | none => none
    | some (v, r) =>
      match skipWs r with
      | ',' :: r2 => (parseArrayLoop fuel r2).map (fun p => (v :: p.1, p.2))
      | ']' :: r2 => some ([v], r2)
      | _ => none
termination_by structural fuel => fuel

def parseObjLoop : Nat → List Char → Option (List (String × Json) × List Char)
  | 0, _ => none
  | fuel + 1, l =>
    match skipWs l with
    | '"' :: rest =>
      (match parseStringBody rest with
       | none => none
       | some (k, r) =>
         match skipWs r with
         | ':' :: r2 =>
           (match parseValue fuel r2 with
            | none => none
            | some (v, r3) =>
              match skipWs r3 with
              | ',' :: r4 => (parseObjLoop fuel r4).map (fun p => ((String.mk k, v) :: p.1, p.2))
              | '\x7d' :: r4 => some ([(String.mk k, v)], r4)
              | _ => none)
         | _ => none)
    | _ => none
termination_by structural fuel => fuel

end

/-- `JSON.parse`: a complete document is one value with only whitespace
around it. -/
def parseJson (s : String) : Option Json :=
  match parseValue (s.data.length + 2) s.data with
  | some (j, rest) => if (skipWs rest).isEmpty then some j else none
  | none => none

/-- What one fenced block contributes to the candidate list: the elements
of an array, a single object, nothing for other values or on parse
failure (`JSON.parse` exceptions are caught per block). -/
def blockContribution (b : String) : List Json :=
  match parseJson b with
  | some (.arr xs) => xs
  | some (.obj fs) => [Json.obj fs]
  | _ => []

/-- The whole-response fallback parse used when no tagged block was
found. -/
def fallbackParse (resp : String) : List Json :=
  match parseJson resp with
  | some (.arr xs) => xs
  | some (.obj fs) => [Json.obj fs]
  | _ => []

/-- `extractSpansFromResponse`: parse each tagged fenced block
independently (accumulating with `push`), falling back to parsing the
entire response only when no tagged block exists. -/
def extractSpansFromResponse (resp : String) : List Json :=
  let blocks := jsonBlocks resp
  if blocks.isEmpty then fallbackParse resp
  else blocks.foldl (fun acc b => acc ++ blockContribution b) []

/-! ## Credential encryption (`part_001`, API key section)

`encryptApiKey` derives an AES-GCM key from the user id via
PBKDF2-SHA256 (100000 iterations, fresh 16-byte salt), encrypts under a
fresh 12-byte nonce, and emits `base64(salt ‖ iv ‖ ciphertext)`.  The
random values from `crypto.getRandomValues` are passed in explicitly.
PBKDF2 and the AES-GCM keystream/tag are modelled as deterministic
functions of their inputs; AES-GCM's CTR-mode structure (plaintext XOR
keystream, plus an appended 16-byte authentication tag that decryption
checks) is kept, which is what the round-trip property depends on. -/

/-! UTF-8 decoding (`TextDecoder`); `none` on malformed input.  (A real
`TextDecoder` without `fatal: true` would substitute U+FFFD there; on
valid UTF-8 — the only case exercised — the two agree.)  Split into one
helper per sequence length. -/

mutual

def utf8Decode : List Nat → Option (List Char)
  | [] => some []
  | b :: rest =>
    if b < 0x80 then (utf8Decode rest).map (fun cs => Char.ofNat b :: cs)
    else if b < 0xC0 then none
    else if b < 0xE0 then utf8Decode2 b rest
    else if b < 0xF0 then utf8Decode3 b rest
    else if b < 0xF8 then utf8Decode4 b rest
    else none
termination_by structural l => l

def utf8Decode2 (b : Nat) : List Nat → Option (List Char)
  | b1 :: rest2 =>
    if 0x80 ≤ b1 ∧ b1 < 0xC0 then
      if (b - 0xC0) * 64 + (b1 - 0x80) < 0x80 then none
      else (utf8Decode rest2).map (fun cs => Char.ofNat ((b - 0xC0) * 64 + (b1 - 0x80)) :: cs)
    else none
  | [] => none
termination_by structural l => l

def utf8Decode3 (b : Nat) : List Nat → Option (List Char)
  | b1 :: b2 :: rest2 =>
    if (0x80 ≤ b1 ∧ b1 < 0xC0) ∧ (0x80 ≤ b2 ∧ b2 < 0xC0) then
      if (b - 0xE0) * 4096 + (b1 - 0x80) * 64 + (b2 - 0x80) < 0x800 then none
      else if 0xD800 ≤ (b - 0xE0) * 4096 + (b1 - 0x80) * 64 + (b2 - 0x80) ∧
          (b - 0xE0) * 4096 + (b1 - 0x80) * 64 + (b2 - 0x80) < 0xE000 then none
      else (utf8Decode rest2).map
        (fun cs => Char.ofNat ((b - 0xE0) * 4096 + (b1 - 0x80) * 64 + (b2 - 0x80)) :: cs)
    else none
  | _ => none
termination_by structural l => l

def utf8Decode4 (b : Nat) : List Nat → Option (List Char)
  | b1 :: b2 :: b3 :: rest2 =>
    if (0x80 ≤ b1 ∧ b1 < 0xC0) ∧ (0x80 ≤ b2 ∧ b2 < 0xC0) ∧ (0x80 ≤ b3 ∧ b3 < 0xC0) then
      if (b - 0xF0) * 262144 + (b1 - 0x80) * 4096 + (b2 - 0x80) * 64 + (b3 - 0x80)
          < 0x10000 then none
      else if 0x110000 ≤
          (b - 0xF0) * 262144 + (b1 - 0x80) * 4096 + (b2 - 0x80) * 64 + (b3 - 0x80) then none
      else (utf8Decode rest2).map
        (fun cs => Char.ofNat
          ((b - 0xF0) * 262144 + (b1 - 0x80) * 4096 + (b2 - 0x80) * 64 + (b3 - 0x80)) :: cs)
    else none
  | _ => none
termination_by structural l => l

end

def utf8DecodeStr (bs : List Nat) : Option String := (utf8Decode bs).map String.mk

def b64Alphabet : List Char :=
  ("ABCDEFGHIJKLMNOPQRSTUVWXYZabcdefghijklmnopqrstuvwxyz0123456789+/").data

def b64Char (n : Nat) : Char := b64Alphabet.getD n 'A'

def b64Index (c : Char) : Option Nat := b64Alphabet.findIdx? (fun x => x = c)

/-- `bytesToBase64` (via `String.fromCharCode` and `btoa`): standard
base64 with `=` padding. -/
def bytesToBase64 : List Nat → String
  | [] => ""
  | [a] => String.mk [b64Char (a / 4), b64Char (a % 4 * 16), '=', '=']
  | [a, b] => String.mk [b64Char (a / 4), b64Char (a % 4 * 16 + b / 16), b64Char (b % 16 * 4), '=']
  | a :: b :: c :: rest =>
    String.mk [b64Char (a / 4), b64Char (a % 4 * 16 + b / 16),
               b64Char (b % 16 * 4 + c / 64), b64Char (c % 64)] ++ bytesToBase64 rest

def base64DecodeChars : List Char → Option (List Nat)
  | [] => some []
  | c1 :: c2 :: c3 :: c4 :: rest =>
    if rest.isEmpty ∧ c3 = '=' ∧ c4 = '=' then
      (match b64Index c1, b64Index c2 with
       | some i1, some i2 => some [i1 * 4 + i2 / 16]
       | _, _ => none)
    else if rest.isEmpty ∧ c4 = '=' then
      (match b64Index c1, b64Index c2, b64Index c3 with
       | some i1, some i2, some i3 => some [i1 * 4 + i2 / 16, i2 % 16 * 16 + i3 / 4]
       | _, _, _ => none)
    else
      (match b64Index c1, b64Index c2, b64Index c3, b64Index c4, base64DecodeChars rest with
       | some i1, some i2, some i3, some i4, some bs =>
         some ((i1 * 4 + i2 / 16) :: (i2 % 16 * 16 + i3 / 4) :: (i3 % 4 * 64 + i4) :: bs)
       | _, _, _, _, _ => none)
  | _ => none

/-- `base64ToBytes` (via `atob`); `none` models the exception on
malformed base64. -/
def base64ToBytes (s : String) : Option (List Nat) := base64DecodeChars s.data

/-- An injective-style fold of a byte list (bijective base-256
numeration), used to feed byte strings into the deterministic crypto
models. -/
def byteFold (bs : List Nat) : Nat := bs.foldl (fun a b => a * 256 + b % 256 + 1) 1

/-- The PBKDF2 iteration count used by both `encryptApiKey` and
`decryptApiKey`. -/
def pbkdf2Iterations : Nat := 100000

/-- Model of PBKDF2-SHA256 key derivation (Web Crypto `deriveKey`): a
deterministic function of password bytes, salt and iteration count. -/
def pbkdf2Model (password salt : List Nat) (iterations : Nat) : Nat :=
  byteFold password * 1000003 + byteFold salt * 1009 + iterations

/-- Model of the AES-GCM (CTR-mode) keystream byte at offset `i`. -/
def gcmKeystream (key : Nat) (iv : List Nat) (i : Nat) : Nat :=
  (key + byteFold iv * 31 + i * 2654435761) % 256

def xorStreamAux (key : Nat) (iv : List Nat) : Nat → List Nat → List Nat
  | _, [] => []
  | i, b :: bs => (b ^^^ gcmKeystream key iv i) :: xorStreamAux key iv (i + 1) bs

/-- CTR-mode body: plaintext XOR keystream (applied twice, it is the
identity — this is why GCM decryption inverts encryption). -/
def xorStream (key : Nat) (iv pt : List Nat) : List Nat := xorStreamAux key iv 0 pt

/-- The 16-byte GCM authentication tag, a deterministic function of key,
nonce and ciphertext body. -/
def gcmTag (key : Nat) (iv body : List Nat) : List Nat :=
  natBytesPad 16 (key + byteFold iv * 7 + byteFold body * 11)

/-- `crypto.subtle.encrypt({name: 'AES-GCM'})`: ciphertext body with the
authentication tag appended. -/
def aesGcmEncrypt (key : Nat) (iv pt : List Nat) : List Nat :=
  let body := xorStream key iv pt
  body ++ gcmTag key iv body

/-- `crypto.subtle.decrypt({name: 'AES-GCM'})`: check the trailing tag,
then invert the keystream; `none` models the rejection (thrown
`OperationError`) on authentication failure. -/
def aesGcmDecrypt (key : Nat) (iv data : List Nat) : Option (List Nat) :=
  if data.length < 16 then none
  else
    let body := data.take (data.length - 16)
    let tag := data.drop (data.length - 16)
    if tag = gcmTag key iv body then some (xorStream key iv body) else none

/-- `encryptApiKey`: PBKDF2-derive a key from the user id with the fresh
`salt`, AES-GCM-encrypt the UTF-8 plaintext under the fresh `iv`, output
`base64(salt ‖ iv ‖ ciphertext)`. -/
def encryptApiKey (apiKey userId : String) (salt iv : List Nat) : String :=
  let key := pbkdf2Model (utf8Encode userId) salt pbkdf2Iterations
  let ct := aesGcmEncrypt key iv (utf8Encode apiKey)
  bytesToBase64 (salt ++ iv ++ ct)

/-- `decryptApiKey`: split the base64 payload at offsets 16 and 28,
re-derive the key with the same user id, decrypt, decode. -/
def decryptApiKey (encrypted userId : String) : Option String :=
  match base64ToBytes encrypted with
  | none => none
  | some data =>
    let salt := data.take 16
    let iv := (data.drop 16).take 12
    let ct := data.drop 28
    let key := pbkdf2Model (utf8Encode userId) salt pbkdf2Iterations
    match aesGcmDecrypt key iv ct with
    | none => none
    | some pt => utf8DecodeStr pt

/-! ## Lemmas about JS object operations -/

theorem find?_setKey_self (fs : List (String × Json)) (k : String) (v : Json) :
    (setKey fs k v).find? (fun kv => kv.1 == k) = some (k, v) := by
  induction fs with
  | nil => simp [setKey]
  | cons q qs ih =>
    by_cases h : q.1 = k
    · simp [setKey, h]
    · rw [setKey, if_neg h, List.find?_cons_of_neg _ (by simp [h])]
      exact ih

theorem getKey_setKey (fs : List (String × Json)) (k : String) (v : Json) :
    getKey (setKey fs k v) k = some v := by
  simp [getKey, find?_setKey_self]

theorem getKey_setKey_ne (fs : List (String × Json)) (k k' : String) (v : Json)
    (h : k ≠ k') : getKey (setKey fs k v) k' = getKey fs k' := by
  induction fs with
  | nil => simp [setKey, getKey, h]
  | cons q qs ih =>
    by_cases hq : q.1 = k
    · have hq' : ¬ q.1 = k' := by rw [hq]; exact h
      rw [setKey, if_pos hq, getKey, getKey,
        List.find?_cons_of_neg _ (by simp [h]), List.find?_cons_of_neg _ (by simp [hq'])]
    · by_cases hq' : q.1 = k'
      · rw [setKey, if_neg hq, getKey, getKey,
          List.find?_cons_of_pos _ (by simp [hq']), List.find?_cons_of_pos _ (by simp [hq'])]
      · rw [setKey, if_neg hq, getKey, getKey,
          List.find?_cons_of_neg _ (by simp [hq']), List.find?_cons_of_neg _ (by simp [hq'])]
        exact ih

theorem setKey_setKey (fs : List (String × Json)) (k : String) (v w : Json) :
    setKey (setKey fs k v) k w = setKey fs k w := by
  induction fs with
  | nil => simp [setKey]
  | cons q qs ih =>
    by_cases h : q.1 = k
    · simp [setKey, h]
    · simp [setKey, h, ih]

theorem eraseKey_setKey (fs : List (String × Json)) (k : String) (v : Json) :
    eraseKey (setKey fs k v) k = eraseKey fs k := by
  induction fs with
  | nil => simp [setKey, eraseKey]
  | cons q qs ih =>
    by_cases h : q.1 = k
    · simp [setKey, eraseKey, h]
    · simp only [setKey, if_neg h, eraseKey, List.filter_cons]
      simp only [eraseKey] at ih
      rw [ih]

theorem getKey_isSome_tail (q : String × Json) (qs : List (String × Json)) (k : String)
    (hq : ¬ q.1 = k) (hk : (getKey (q :: qs) k).isSome) : (getKey qs k).isSome := by
  rw [getKey, List.find?_cons_of_neg _ (by simp [hq])] at hk
  exact hk

theorem setKey_comm (fs : List (String × Json)) (k k' : String) (v w : Json)
    (hne : k ≠ k') (hk : (getKey fs k).isSome) :
    setKey (setKey fs k v) k' w = setKey (setKey fs k' w) k v := by
  induction fs with
  | nil => simp [getKey] at hk
  | cons q qs ih =>
    by_cases h1 : q.1 = k
    · simp [setKey, h1, hne, Ne.symm hne]
    · by_cases h2 : q.1 = k'
      · simp [setKey, h1, h2, hne, Ne.symm hne]
      · have hk' := getKey_isSome_tail q qs k h1 hk
        simp [setKey, h1, h2, ih hk']

theorem setKey_quad (fields : List (String × Json)) (T V C W : Json)
    (hCbS : (getKey fields "confirmed_by").isSome) :
    setKey (setKey (setKey (setKey fields "this" T) "confirmed_by" C) "this" V) "confirmed_by" W
      = setKey (setKey fields "this" V) "confirmed_by" W := by
  rw [setKey_comm (setKey fields "this" T) "confirmed_by" "this" C V (by decide)
    (by rwa [getKey_setKey_ne _ _ _ _ (by decide)])]
  rw [setKey_setKey, setKey_setKey]

/-- The clone built for hashing is invariant under the stored
`this.hash` and `confirmed_by.signature` values: overwriting both with
arbitrary strings leaves it unchanged. -/
theorem spanClone_override (fields ts cs : List (String × Json)) (h s : String)
    (hThis : getKey fields "this" = some (Json.obj ts))
    (hCb : getKey fields "confirmed_by" = some (Json.obj cs)) :
    spanClone
      (setKey (setKey fields "this" (Json.obj (setKey ts "hash" (Json.str h))))
        "confirmed_by" (Json.obj (setKey cs "signature" (Json.str s))))
      = spanClone fields := by
  simp only [spanClone]
  rw [getKey_setKey_ne _ "confirmed_by" "this" _ (by decide)]
  rw [getKey_setKey fields "this" _]
  rw [getKey_setKey (setKey fields "this" _) "confirmed_by" _]
  rw [hThis, hCb]
  simp only [Option.getD_some, spreadToObj, jsTruthy, if_true, setKey_setKey]
  exact setKey_quad fields _ _ _ _ (by rw [hCb]; rfl)

/-- The hash preimage of `calculateSpanHash` is invariant under the
stored `this.hash` and `confirmed_by.signature` values. -/
theorem spanForHashing_override (fields ts cs : List (String × Json)) (h s : String)
    (hThis : getKey fields "this" = some (Json.obj ts))
    (hCb : getKey fields "confirmed_by" = some (Json.obj cs)) :
    spanForHashing
      (setKey (setKey fields "this" (Json.obj (setKey ts "hash" (Json.str h))))
        "confirmed_by" (Json.obj (setKey cs "signature" (Json.str s))))
      = spanForHashing fields := by
  unfold spanForHashing
  rw [spanClone_override fields ts cs h s hThis hCb]

/-- Sample span fields in builder order (a JS object). -/
def c1Fields : List (String × Json) :=
  [("id", Json.str "0192d100-0000-7abc-8000-000000000001"),
   ("trace_id", Json.str "contract-0192d100"),
   ("type", Json.str "contract.created"),
   ("entity", Json.str "minicontrato"),
   ("body", Json.obj [("action", Json.str "create_contract"), ("input", Json.obj [])]),
   ("started_at", Json.str "2025-01-01T00:00:00.000Z"),
   ("this", Json.obj [("hash", Json.str ""), ("version", Json.str "1.0.0")])]

/-- The same span with its first two fields in the opposite insertion
order: structurally equal as a map, but a different JS object. -/
def c1FieldsPermuted : List (String × Json) :=
  [("trace_id", Json.str "contract-0192d100"),
   ("id", Json.str "0192d100-0000-7abc-8000-000000000001"),
   ("type", Json.str "contract.created"),
   ("entity", Json.str "minicontrato"),
   ("body", Json.obj [("action", Json.str "create_contract"), ("input", Json.obj [])]),
   ("started_at", Json.str "2025-01-01T00:00:00.000Z"),
   ("this", Json.obj [("hash", Json.str ""), ("version", Json.str "1.0.0")])]

/-- C1 counterexample: `calculateSpanHash` serializes the clone with
`JSON.stringify`, which follows object insertion order, not a fixed
sorted order; two structurally equal spans whose fields appear in
different insertion orders therefore hash differently, contradicting the
claim's "fixed, sorted order / same digest" part. -/
theorem C1_counterexample :
    structEqB (Json.obj c1Fields) (Json.obj c1FieldsPermuted) = true ∧
    calculateSpanHash c1Fields ≠ calculateSpanHash c1FieldsPermuted := by
  exact ⟨by decide, by decide⟩

/-- C1 (amended): the span hash is computed over a clone with
`this.hash` blanked and `confirmation.signature` blanked-then-dropped —
so the digest ignores the stored hash and signature values entirely —
but the clone is serialized compactly in object insertion order, not a
sorted canonical order. -/
theorem C1_thm (fields ts cs : List (String × Json)) (h s : String)
    (hThis : getKey fields "this" = some (Json.obj ts))
    (hCb : getKey fields "confirmed_by" = some (Json.obj cs)) :
    calculateSpanHash
      (setKey (setKey fields "this" (Json.obj (setKey ts "hash" (Json.str h))))
        "confirmed_by" (Json.obj (setKey cs "signature" (Json.str s))))
      = calculateSpanHash fields := by
  unfold calculateSpanHash
  rw [spanForHashing_override fields ts cs h s hThis hCb]

def c1ThisFields : List (String × Json) :=
  [("hash", Json.str "blake3:00aa"), ("version", Json.str "1.0.0")]

def c1CbFields : List (String × Json) :=
  [("signature", Json.str "ed25519:ff"), ("domain", Json.str "minicontratos.local"),
   ("timestamp", Json.str "2025-01-01T00:00:01.000Z"), ("signer_id", Json.str "dan-001")]

def c1SignedFields : List (String × Json) :=
  c1Fields.dropLast ++
    [("this", Json.obj c1ThisFields), ("confirmed_by", Json.obj c1CbFields)]

theorem C1_witness :
    calculateSpanHash
      (setKey (setKey c1SignedFields "this" (Json.obj (setKey c1ThisFields "hash" (Json.str "tampered"))))
        "confirmed_by" (Json.obj (setKey c1CbFields "signature" (Json.str "resigned"))))
      = calculateSpanHash c1SignedFields :=
  C1_thm c1SignedFields c1ThisFields c1CbFields "tampered" "resigned" (by rfl) (by rfl)

/-! ## C2 / C8: contract view projection -/

def c2Created : Span :=
  { id := "s1", trace_id := "t1", parent_id := none, type := "contract.created",
    entity := "minicontrato",
    body := { action := "create_contract", input := some (Json.obj []), output := none,
              rules := some (Json.arr []), metadata := none },
    started_at := "2025-01-01T00:00:00.000Z", completed_at := some "2025-01-01T00:00:00.000Z",
    duration_ms := some 0, this := { hash := "", version := "1.0.0" }, confirmed_by := none }

def c2Cancelled : Span :=
  { c2Created with
    id := "s2",
    type := "contract.cancelled",
    started_at := "2025-01-02T00:00:00.000Z",
    completed_at := some "2025-01-02T00:00:00.000Z" }

/-- C2 counterexample: when no contract record exists yet, the
projection's creation branch sets `status: 'active'` without consulting
the trace's `contract.cancelled` span, so a first projection of a trace
already containing both `contract.created` and `contract.cancelled`
yields `active`, not `cancelled` as the claim states. -/
theorem C2_counterexample :
    (updateContractFromSpans [c2Created, c2Cancelled] none "t1"
        "2025-01-03T00:00:00.000Z").map (fun c => c.status) = some ContractStatus.active ∧
    c2Cancelled.type = "contract.cancelled" ∧
    ContractStatus.active ≠ ContractStatus.cancelled :=
  ⟨rfl, rfl, by decide⟩

/-- C2 (amended): the cancelled > completed > unchanged precedence holds
only on the update branch, i.e. when the contract record already existed
before this projection; a first projection always yields `active`
regardless of cancelled/completed spans (see the counterexample). -/
theorem C2_thm (spans : List Span) (c : Contract) (tid now : String)
    (hcr : ∃ s ∈ spans, s.type = "contract.created") :
    ((∃ s ∈ spans, s.type = "contract.cancelled") →
      ∃ cs, spans.find? (fun s => s.type == "contract.cancelled") = some cs ∧
        updateContractFromSpans spans (some c) tid now =
          some { c with
                 updated_at := now,
                 spans := spans.map (fun s => s.id),
                 status := ContractStatus.cancelled,
                 completed_at := cs.completed_at })
    ∧ ((∀ s ∈ spans, s.type ≠ "contract.cancelled") →
        (∃ s ∈ spans, s.type = "contract.completed") →
        ∃ cps, spans.find? (fun s => s.type == "contract.completed") = some cps ∧
          updateContractFromSpans spans (some c) tid now =
            some { c with
                   updated_at := now,
                   spans := spans.map (fun s => s.id),
                   status := ContractStatus.completed,
                   completed_at := cps.completed_at })
    ∧ ((∀ s ∈ spans, s.type ≠ "contract.cancelled") →
        (∀ s ∈ spans, s.type ≠ "contract.completed") →
        updateContractFromSpans spans (some c) tid now =
          some { c with updated_at := now, spans := spans.map (fun s => s.id) }) := by
  have hne : spans ≠ [] := by
    rcases hcr with ⟨s, hs, _⟩
    exact List.ne_nil_of_mem hs
  have hEmpty : spans.isEmpty = false := by
    cases spans with
    | nil => simp at hne
    | cons a l => rfl
  obtain ⟨cr, hcrf⟩ : ∃ cr, spans.find? (fun s => s.type == "contract.created") = some cr := by
    rcases hcr with ⟨s, hs, ht⟩
    exact Option.isSome_iff_exists.mp (List.find?_isSome.mpr ⟨s, hs, by simp [ht]⟩)
  refine ⟨?_, ?_, ?_⟩
  · intro hex
    obtain ⟨cs, hcsf⟩ : ∃ cs, spans.find? (fun s => s.type == "contract.cancelled") = some cs := by
      rcases hex with ⟨s, hs, ht⟩
      exact Option.isSome_iff_exists.mp (List.find?_isSome.mpr ⟨s, hs, by simp [ht]⟩)
    exact ⟨cs, hcsf, by simp [updateContractFromSpans, hEmpty, hcrf, hcsf]⟩
  · intro hnone hex
    have hcsf : spans.find? (fun s => s.type == "contract.cancelled") = none :=
      List.find?_eq_none.mpr (fun x hx => by simpa using hnone x hx)
    obtain ⟨cps, hcpf⟩ : ∃ cps, spans.find? (fun s => s.type == "contract.completed") = some cps := by
      rcases hex with ⟨s, hs, ht⟩
      exact Option.isSome_iff_exists.mp (List.find?_isSome.mpr ⟨s, hs, by simp [ht]⟩)
    exact ⟨cps, hcpf, by simp [updateContractFromSpans, hEmpty, hcrf, hcsf, hcpf]⟩
  · intro h1 h2
    have hcsf : spans.find? (fun s => s.type == "contract.cancelled") = none :=
      List.find?_eq_none.mpr (fun x hx => by simpa using h1 x hx)
    have hcpf : spans.find? (fun s => s.type == "contract.completed") = none :=
      List.find?_eq_none.mpr (fun x hx => by simpa using h2 x hx)
    simp [updateContractFromSpans, hEmpty, hcrf, hcsf, hcpf]

def c2Existing : Contract :=
  { id := "t1", title := Json.str "Contrato entre Jo", description := none, parties := [],
    status := ContractStatus.active, created_at := "2025-01-01T00:00:00.000Z",
    updated_at := "2025-01-01T00:00:00.000Z", completed_at := none,
    spans := ["s1"], metadata := none }

theorem C2_witness :
    ∃ cs, ([c2Created, c2Cancelled].find? (fun s => s.type == "contract.cancelled")) = some cs ∧
      updateContractFromSpans [c2Created, c2Cancelled] (some c2Existing) "t1"
          "2025-01-03T00:00:00.000Z" =
        some { c2Existing with
               updated_at := "2025-01-03T00:00:00.000Z",
               spans := [c2Created, c2Cancelled].map (fun s => s.id),
               status := ContractStatus.cancelled,
               completed_at := cs.completed_at } :=
  (C2_thm [c2Created, c2Cancelled] c2Existing "t1" "2025-01-03T00:00:00.000Z"
      ⟨c2Created, by simp, rfl⟩).1
    ⟨c2Cancelled, by simp, rfl⟩

/-- Equality of contract records on every field except `updated_at`. -/
def sameExceptUpdatedAt (a b : Contract) : Prop :=
  a.id = b.id ∧ a.title = b.title ∧ a.description = b.description ∧ a.parties = b.parties ∧
  a.status = b.status ∧ a.created_at = b.created_at ∧ a.completed_at = b.completed_at ∧
  a.spans = b.spans ∧ a.metadata = b.metadata

def c8Created : Span :=
  { id := "s1", trace_id := "t1", parent_id := none, type := "contract.created",
    entity := "minicontrato",
    body := { action := "create_contract", input := some (Json.obj []), output := none,
              rules := none, metadata := none },
    started_at := "2025-01-01T00:00:00.000Z", completed_at := some "2025-01-01T00:00:00.000Z",
    duration_ms := some 0, this := { hash := "", version := "1.0.0" }, confirmed_by := none }

def c8Cancelled : Span :=
  { c8Created with
    id := "s2",
    type := "contract.cancelled",
    started_at := "2025-01-02T00:00:00.000Z",
    completed_at := some "2025-01-02T00:00:00.000Z" }

/-- C8 counterexample: over the unchanged span set
`[contract.created, contract.cancelled]` and with no pre-existing record,
the first projection stores `status: 'active'` and the second stores
`status: 'cancelled'` — even at the same projection time — so the second
run is not identical-except-`updated_at` to the first. -/
theorem C8_counterexample :
    (updateContractFromSpans [c8Created, c8Cancelled] none "t1"
        "2025-01-03T00:00:00.000Z").map (fun c => c.status) = some ContractStatus.active ∧
    (updateContractFromSpans [c8Created, c8Cancelled]
        (updateContractFromSpans [c8Created, c8Cancelled] none "t1" "2025-01-03T00:00:00.000Z")
        "t1" "2025-01-03T00:00:00.000Z").map (fun c => c.status) =
      some ContractStatus.cancelled :=
  ⟨rfl, rfl⟩

/-- C8 (amended): once the contract record exists before a projection,
re-running the projection over an unchanged span set is idempotent except
for `updated_at`, and `created_at` is never changed. -/
theorem C8_thm (spans : List Span) (c : Contract) (tid t1 t2 : String) :
    let stored1 := (updateContractFromSpans spans (some c) tid t1).getD c
    let stored2 := (updateContractFromSpans spans (some stored1) tid t2).getD stored1
    sameExceptUpdatedAt stored1 stored2 ∧ stored1.created_at = c.created_at := by
  intro stored1 stored2
  cases hE : spans.isEmpty with
  | true => simp [stored2, stored1, updateContractFromSpans, hE, sameExceptUpdatedAt]
  | false =>
    cases hcr : spans.find? (fun s => s.type == "contract.created") with
    | none => simp [stored2, stored1, updateContractFromSpans, hE, hcr, sameExceptUpdatedAt]
    | some cr =>
      cases hcs : spans.find? (fun s => s.type == "contract.cancelled") with
      | some cs =>
        simp [stored2, stored1, updateContractFromSpans, hE, hcr, hcs, sameExceptUpdatedAt]
      | none =>
        cases hcp : spans.find? (fun s => s.type == "contract.completed") with
        | some cps =>
          simp [stored2, stored1, updateContractFromSpans, hE, hcr, hcs, hcp, sameExceptUpdatedAt]
        | none =>
          simp [stored2, stored1, updateContractFromSpans, hE, hcr, hcs, hcp, sameExceptUpdatedAt]

/-! ## C3: signature verification in `verifyLedger` -/

def c3CbStub : SpanConfirmation :=
  { signature := "", domain := "minicontratos.local",
    timestamp := "2025-01-01T00:00:01.000Z", signer_id := "dan-001" }

def c3Base : Span :=
  { id := "s1", trace_id := "t1", parent_id := none, type := "contract.created",
    entity := "minicontrato",
    body := { action := "create_contract", input := some (Json.obj []), output := none,
              rules := none, metadata := none },
    started_at := "2025-01-01T00:00:00.000Z", completed_at := some "2025-01-01T00:00:00.000Z",
    duration_ms := some 0, this := { hash := "", version := "1.0.0" },
    confirmed_by := some c3CbStub }

/-- The content hash of the span (computed, as `calculateSpanHash` does,
with the hash and signature fields blanked, so it is the same for
`c3Base` and for the signed span below). -/
def c3Hash : String := calculateSpanHash c3Base.toJson

/-- A signature over the hash string validly produced by keypair 7's
private key (exactly what `sign(hash, privateKey)` yields). -/
def c3Sig : String := "ed25519:" ++ sigHexModel 7 c3Hash

def c3Span : Span :=
  { c3Base with
    this := { hash := c3Hash, version := "1.0.0" },
    confirmed_by := some { c3CbStub with signature := c3Sig } }

def c3Identity : Identity :=
  { user_id := "dan-001", private_key_handle := CryptoKeyRef.privateKey 7 }

def c3Contract : Contract :=
  { id := "t1", title := Json.str "Contrato s1", description := none, parties := [],
    status := ContractStatus.active, created_at := "2025-01-01T00:00:00.000Z",
    updated_at := "2025-01-01T00:00:00.000Z", completed_at := none,
    spans := ["s1"], metadata := none }

set_option maxHeartbeats 1000000 in
/-- C3 failing input, evaluated: `c3Span` has an intact hash and a
signature validly produced by the local identity's own signing keypair
(verification with the matching public key succeeds), yet `verifyLedger`
reports `Invalid signature` for it, because the code hands
`identity.private_key_handle` (cast with `as any`) to `verifySpan` as the
verification key — there is no `signer_id -> publicKey` lookup at all —
and Web Crypto's `verify` rejects a sign-only private key. -/
theorem C3_bug_eval :
    c3Span.this.hash = calculateSpanHash c3Span.toJson ∧
    verifySpan c3Span (CryptoKeyRef.publicKey 7) = true ∧
    c3Identity.private_key_handle = CryptoKeyRef.privateKey 7 ∧
    (verifyLedger [c3Contract] [c3Span] (some c3Identity)).errors
      = [{ span_id := "s1", error := "Invalid signature" }] ∧
    (verifyLedger [c3Contract] [c3Span] (some c3Identity)).valid = false :=
  ⟨by decide, by decide, rfl, by decide, by decide⟩

/-! ## C6: error collection in `verifyLedger` -/

theorem foldl_append_flatMap {α β : Type} (f : α → List β) :
    ∀ (l : List α) (init : List β),
      l.foldl (fun acc x => acc ++ f x) init = init ++ l.flatMap f
  | [], init => by simp
  | x :: xs, init => by
    simp only [List.foldl_cons, List.flatMap_cons]
    rw [foldl_append_flatMap f xs (init ++ f x)]
    simp [List.append_assoc]

theorem verifyLedger_acc (store : List Span) (identity : Option Identity) :
    ∀ (contracts : List Contract) (init : List VError × Nat),
      contracts.foldl
        (fun (acc : List VError × Nat) c =>
          let spans := getSpansByTrace store c.id
          (spans.foldl (fun es s => es ++ spanCheckErrors identity spans s) acc.1,
           acc.2 + spans.length)) init
      = (init.1 ++ contracts.flatMap (fun c =>
            (getSpansByTrace store c.id).flatMap
              (spanCheckErrors identity (getSpansByTrace store c.id))),
         init.2 + (contracts.map (fun c => (getSpansByTrace store c.id).length)).sum)
  | [], init => by simp
  | c :: cs, init => by
    simp only [List.foldl_cons, List.flatMap_cons, List.map_cons, List.sum_cons]
    rw [verifyLedger_acc store identity cs]
    rw [foldl_append_flatMap]
    simp [List.append_assoc, Nat.add_assoc]

/-- C6: `verifyLedger` collects, for every contract group and every span
in it, all hash, signature and parent errors into one report — it never
stops at the first failure — and reports the total number of spans
examined; `valid` holds exactly when the error list is empty. -/
theorem C6_thm (contracts : List Contract) (store : List Span) (identity : Option Identity) :
    (verifyLedger contracts store identity).errors
      = contracts.flatMap (fun c =>
          (getSpansByTrace store c.id).flatMap (fun s =>
            hashCheckErrors s ++ sigCheckErrors identity s
              ++ parentCheckErrors (getSpansByTrace store c.id) s))
    ∧ (verifyLedger contracts store identity).total
        = (contracts.map (fun c => (getSpansByTrace store c.id).length)).sum
    ∧ ((verifyLedger contracts store identity).valid = true
        ↔ (verifyLedger contracts store identity).errors = []) := by
  have h := verifyLedger_acc store identity contracts ([], 0)
  constructor
  · show (verifyLedger contracts store identity).errors = _
    simp only [verifyLedger, h]
    rfl
  constructor
  · simp only [verifyLedger, h]
    simp
  · simp only [verifyLedger, h]
    simp [List.isEmpty_iff, spanCheckErrors]

/-! ## C4: query filter composition -/

def c4A : Span :=
  { id := "a", trace_id := "t1", parent_id := none, type := "contract.created",
    entity := "minicontrato",
    body := { action := "create_contract", input := some (Json.obj []), output := none,
              rules := none, metadata := none },
    started_at := "2025-01-01T00:00:00.000Z", completed_at := none, duration_ms := some 0,
    this := { hash := "", version := "1.0.0" }, confirmed_by := none }

def c4B : Span :=
  { c4A with
    id := "b",
    type := "obligation.registered",
    started_at := "2025-01-02T00:00:00.000Z" }

def c4Filter : SpanFilter := { trace_id := some "t1", type := some "contract.created" }

/-- C4 counterexample: with both `trace_id` and `type` given, `querySpans`
serves the query from the `by-trace` index and never applies the `type`
predicate afterwards, so the result keeps span `b`, whose type does not
match the requested type — the type filter does not narrow the result. -/
theorem C4_counterexample :
    (querySpans [c4A, c4B] c4Filter).map (fun s => (s.id, s.type))
      = [("b", "obligation.registered"), ("a", "contract.created")] ∧
    c4Filter.type = some "contract.created" :=
  ⟨rfl, rfl⟩

/-- The single predicate `querySpans` derives from the index-eligible
fields: only the first provided one of `trace_id`, `type`, `entity` is
applied. -/
def primaryPred (f : SpanFilter) (s : Span) : Bool :=
  match optStr f.trace_id with
  | some t => s.trace_id == t
  | none =>
    match optStr f.type with
    | some ty => s.type == ty
    | none =>
      match optStr f.entity with
      | some e => s.entity == e
      | none => true

/-- The predicates `querySpans` always applies after the index lookup. -/
def secondaryPred (f : SpanFilter) (s : Span) : Bool :=
  (match optStr f.user_id with
   | some u => (match s.confirmed_by with
      | some cb => cb.signer_id == u
      | none => false)
   | none => true)
  && (match optStr f.from_ with
      | some fr => strLeB fr s.started_at
      | none => true)
  && (match optStr f.to_ with
      | some t => strLeB s.started_at t
      | none => true)

/-- C4 (amended): the result of `querySpans` consists exactly of the
store's spans satisfying the first provided index-eligible predicate
(`trace_id`, else `type`, else `entity` — further index-eligible fields
are ignored) together with all of the provided `user_id`/`from`/`to`
predicates; it is ordered by `started_at` descending, and a (truthy)
`limit` truncates only after all filtering and sorting. -/
theorem C4_thm (store : List Span) (f : SpanFilter) :
    (∀ s, s ∈ querySpans store { f with limit := none }
        ↔ s ∈ store ∧ (primaryPred f s && secondaryPred f s) = true)
    ∧ List.Sorted spanDescRel (querySpans store { f with limit := none })
    ∧ querySpans store f
        = (match f.limit with
           | some n =>
             if n = 0 then querySpans store { f with limit := none }
             else (querySpans store { f with limit := none }).take n
           | none => querySpans store { f with limit := none }) := by
  have hmemSort : ∀ (l : List Span) (x : Span),
      x ∈ List.insertionSort spanDescRel l ↔ x ∈ l :=
    fun l x => (List.perm_insertionSort spanDescRel l).mem_iff
  refine ⟨?_, ?_, ?_⟩
  · intro s
    rcases hT : optStr f.trace_id with _ | t <;>
      rcases hTy : optStr f.type with _ | ty <;>
        rcases hE : optStr f.entity with _ | e <;>
          rcases hU : optStr f.user_id with _ | u <;>
            rcases hF : optStr f.from_ with _ | fr <;>
              rcases hTo : optStr f.to_ with _ | tt <;>
                simp [querySpans, hT, hTy, hE, hU, hF, hTo, primaryPred, secondaryPred,
                  hmemSort, List.mem_filter, and_assoc, and_comm, and_left_comm]
  · exact List.sorted_insertionSort spanDescRel _
  · cases hL : f.limit with
    | none => simp [querySpans, hL]
    | some n =>
      by_cases hn : n = 0
      · simp [querySpans, hL, hn]
      · simp [querySpans, hL, hn]

def c5Base : Span :=
  { id := "w1", trace_id := "t1", parent_id := none, type := "contract.created",
    entity := "minicontrato",
    body := { action := "create_contract", input := none, output := none,
              rules := none, metadata := none },
    started_at := "2025-01-01T00:00:00.000Z", completed_at := none, duration_ms := some 0,
    this := { hash := "", version := "1.0.0" }, confirmed_by := none }

/-! ## C5: append exclusivity -/

/-- C5: appending a span whose id already exists fails with the
storage-conflict error and leaves the store exactly as it was; appending
a span with a fresh id succeeds, and every secondary index view of the
new store reflects exactly the old index contents plus the new span
(under its respective key). -/
theorem C5_thm (store : List Span) (s : Span) :
    (s.id ∈ store.map (fun t => t.id) →
      appendSpanState store s = (store, some "ConstraintError"))
    ∧ (s.id ∉ store.map (fun t => t.id) →
      appendSpanState store s = (store ++ [s], none)
      ∧ (∀ t, byTrace (store ++ [s]) t
            = byTrace store t ++ if s.trace_id = t then [s] else [])
      ∧ (∀ ty, byType (store ++ [s]) ty
            = byType store ty ++ if s.type = ty then [s] else [])
      ∧ (∀ e, byEntity (store ++ [s]) e
            = byEntity store e ++ if s.entity = e then [s] else [])
      ∧ (∀ ts, byTime (store ++ [s]) ts
            = byTime store ts ++ if s.started_at = ts then [s] else [])
      ∧ (∀ u, byUser (store ++ [s]) u
            = byUser store u ++ (match s.confirmed_by with
                | some cb => if cb.signer_id = u then [s] else []
                | none => []))) := by
  constructor
  · intro hmem
    have hany : store.any (fun t => t.id == s.id) = true := by
      rw [List.any_eq_true]
      rcases List.mem_map.mp hmem with ⟨t, ht, hid⟩
      exact ⟨t, ht, by simp [hid]⟩
    simp [appendSpanState, appendSpan, hany]
  · intro hmem
    have hany : store.any (fun t => t.id == s.id) = false := by
      rw [List.any_eq_false]
      intro t ht
      simp only [beq_iff_eq]
      intro h
      exact hmem (h ▸ List.mem_map_of_mem (fun t => t.id) ht)
    refine ⟨by simp [appendSpanState, appendSpan, hany], ?_, ?_, ?_, ?_, ?_⟩
    · intro t
      by_cases h : s.trace_id = t <;>
        simp [byTrace, List.filter_append, h]
    · intro ty
      by_cases h : s.type = ty <;>
        simp [byType, List.filter_append, h]
    · intro e
      by_cases h : s.entity = e <;>
        simp [byEntity, List.filter_append, h]
    · intro ts
      by_cases h : s.started_at = ts <;>
        simp [byTime, List.filter_append, h]
    · intro u
      cases hcb : s.confirmed_by with
      | none => simp [byUser, List.filter_append, hcb]
      | some cb =>
        by_cases h : cb.signer_id = u <;>
          simp [byUser, List.filter_append, hcb, h]

theorem C5_witness :
    appendSpanState [c5Base] c5Base = ([c5Base], some "ConstraintError")
    ∧ appendSpanState [c5Base] { c5Base with id := "w2" }
        = ([c5Base, { c5Base with id := "w2" }], none) :=
  ⟨(C5_thm [c5Base] c5Base).1 (by simp),
   ((C5_thm [c5Base] { c5Base with id := "w2" }).2 (by simp [c5Base])).1⟩

/-! ## C7: extraction from model output -/

/-- C7: each tagged fenced block is parsed independently — an array
contributes its elements, an object contributes itself, anything else
(including a parse failure) contributes nothing and aborts nothing — and
the whole response is parsed as JSON only when no tagged block was
found. -/
theorem C7_thm (resp : String) :
    (jsonBlocks resp = [] → extractSpansFromResponse resp = fallbackParse resp)
    ∧ (jsonBlocks resp ≠ [] →
        extractSpansFromResponse resp = (jsonBlocks resp).flatMap blockContribution)
    ∧ (∀ b, parseJson b = none → blockContribution b = [])
    ∧ (∀ b xs, parseJson b = some (Json.arr xs) → blockContribution b = xs)
    ∧ (∀ b fs, parseJson b = some (Json.obj fs) → blockContribution b = [Json.obj fs]) := by
  refine ⟨?_, ?_, ?_, ?_, ?_⟩
  · intro h
    simp [extractSpansFromResponse, h]
  · intro h
    have hne : (jsonBlocks resp).isEmpty = false := by
      simpa [List.isEmpty_eq_false] using h
    simp only [extractSpansFromResponse, hne, Bool.false_eq_true, if_false]
    rw [foldl_append_flatMap]
    simp
  · intro b h
    simp [blockContribution, h]
  · intro b xs h
    simp [blockContribution, h]
  · intro b fs h
    simp [blockContribution, h]

/-- A model reply with an explanation, one fenced block holding a valid
two-element span array, and a second fenced block holding invalid JSON. -/
def c7Response : String :=
  "Aqui está o contrato:\n```json\n[\x7b\"id\": \"s1\", \"trace_id\": \"t1\"\x7d, \x7b\"id\": \"s2\", \"trace_id\": \"t1\"\x7d]\n```\nE um bloco extra:\n```json\n\x7bjson inválido\n```\n"

theorem C7_witness :
    extractSpansFromResponse c7Response
      = [Json.obj [("id", Json.str "s1"), ("trace_id", Json.str "t1")],
         Json.obj [("id", Json.str "s2"), ("trace_id", Json.str "t1")]] :=
  ((C7_thm c7Response).2.1 (by decide)).trans rfl

/-! ## C9: credential encryption round trip -/

theorem char_valid_nat (c : Char) :
    c.toNat < 0xD800 ∨ (0xDFFF < c.toNat ∧ c.toNat < 0x110000) :=
  c.valid

theorem char_toNat_lt (c : Char) : c.toNat < 0x110000 := by
  rcases char_valid_nat c with h | ⟨_, h⟩
  · omega
  · exact h

theorem utf8EncodeChar_lt (c : Char) : ∀ b ∈ utf8EncodeChar c, b < 256 := by
  have hv := char_toNat_lt c
  intro b hb
  simp only [utf8EncodeChar] at hb
  split_ifs at hb with h1 h2 h3
  · simp at hb; omega
  · simp at hb; rcases hb with h | h <;> omega
  · simp at hb; rcases hb with h | h | h <;> omega
  · simp at hb; rcases hb with h | h | h | h <;> omega

theorem utf8EncodeList_lt (cs : List Char) : ∀ b ∈ utf8EncodeList cs, b < 256 := by
  induction cs with
  | nil => simp [utf8EncodeList]
  | cons c cs ih =>
    intro b hb
    rw [utf8EncodeList] at hb
    rcases List.mem_append.mp hb with h | h
    · exact utf8EncodeChar_lt c b h
    · exact ih b h

theorem utf8Encode_lt (s : String) : ∀ b ∈ utf8Encode s, b < 256 :=
  utf8EncodeList_lt s.data

theorem utf8Decode_encodeChar (c : Char) (rest : List Nat) :
    utf8Decode (utf8EncodeChar c ++ rest) = (utf8Decode rest).map (fun cs => c :: cs) := by
  have hval := char_valid_nat c
  have hofNat : Char.ofNat c.toNat = c := Char.ofNat_toNat c
  have hlt := char_toNat_lt c
  by_cases h1 : c.toNat < 0x80
  · have he : utf8EncodeChar c = [c.toNat] := by
      simp only [utf8EncodeChar]
      rw [if_pos h1]
    rw [he, List.cons_append, List.nil_append]
    rw [utf8Decode]
    rw [if_pos h1, hofNat]
  · by_cases h2 : c.toNat < 0x800
    · have he : utf8EncodeChar c = [0xC0 + c.toNat / 64, 0x80 + c.toNat % 64] := by
        simp only [utf8EncodeChar]
        rw [if_neg h1, if_pos h2]
      rw [he, List.cons_append, List.cons_append, List.nil_append]
      rw [utf8Decode]
      rw [if_neg (by omega), if_neg (by omega), if_pos (by omega)]
      rw [utf8Decode2]
      rw [if_pos (by omega)]
      rw [show (0xC0 + c.toNat / 64 - 0xC0) * 64 + (0x80 + c.toNat % 64 - 0x80)
          = c.toNat from by omega]
      rw [if_neg h1, hofNat]
    · by_cases h3 : c.toNat < 0x10000
      · have he : utf8EncodeChar c
            = [0xE0 + c.toNat / 4096, 0x80 + c.toNat / 64 % 64, 0x80 + c.toNat % 64] := by
          simp only [utf8EncodeChar]
          rw [if_neg h1, if_neg h2, if_pos h3]
        rw [he, List.cons_append, List.cons_append, List.cons_append, List.nil_append]
        rw [utf8Decode]
        rw [if_neg (by omega), if_neg (by omega), if_neg (by omega), if_pos (by omega)]
        rw [utf8Decode3]
        rw [if_pos (by refine ⟨⟨?_, ?_⟩, ?_, ?_⟩ <;> omega)]
        rw [show (0xE0 + c.toNat / 4096 - 0xE0) * 4096 + (0x80 + c.toNat / 64 % 64 - 0x80) * 64
            + (0x80 + c.toNat % 64 - 0x80) = c.toNat from by omega]
        rw [if_neg (by omega), if_neg (by rcases hval with h | ⟨h, _⟩ <;> omega), hofNat]
      · have he : utf8EncodeChar c
            = [0xF0 + c.toNat / 262144, 0x80 + c.toNat / 4096 % 64,
               0x80 + c.toNat / 64 % 64, 0x80 + c.toNat % 64] := by
          simp only [utf8EncodeChar]
          rw [if_neg h1, if_neg h2, if_neg h3]
        rw [he, List.cons_append, List.cons_append, List.cons_append, List.cons_append,
          List.nil_append]
        rw [utf8Decode]
        rw [if_neg (by omega), if_neg (by omega), if_neg (by omega), if_neg (by omega),
          if_pos (by omega)]
        rw [utf8Decode4]
        rw [if_pos (by refine ⟨⟨?_, ?_⟩, ⟨?_, ?_⟩, ?_, ?_⟩ <;> omega)]
        rw [show (0xF0 + c.toNat / 262144 - 0xF0) * 262144
            + (0x80 + c.toNat / 4096 % 64 - 0x80) * 4096
            + (0x80 + c.toNat / 64 % 64 - 0x80) * 64
            + (0x80 + c.toNat % 64 - 0x80) = c.toNat from by omega]
        rw [if_neg (by omega), if_neg (by omega), hofNat]

theorem utf8Decode_encodeList (cs : List Char) :
    utf8Decode (utf8EncodeList cs) = some cs := by
  induction cs with
  | nil => rfl
  | cons c cs ih =>
    rw [utf8EncodeList, utf8Decode_encodeChar, ih]
    rfl

theorem utf8DecodeStr_encode (s : String) : utf8DecodeStr (utf8Encode s) = some s := by
  cases s with
  | mk data => simp [utf8DecodeStr, utf8Encode, utf8Decode_encodeList]

theorem b64Index_b64Char : ∀ n, n < 64 → b64Index (b64Char n) = some n := by decide

theorem b64Char_ne_pad : ∀ n, n < 64 → b64Char n ≠ '=' := by decide

theorem bytesToBase64_data_ne_nil (x : Nat) (xs : List Nat) :
    (bytesToBase64 (x :: xs)).data.isEmpty = false := by
  match xs with
  | [] => rfl
  | [y] => rfl
  | y :: z :: rest => rw [bytesToBase64]; rfl

theorem base64_roundtrip : ∀ (bs : List Nat), (∀ b ∈ bs, b < 256) →
    base64DecodeChars (bytesToBase64 bs).data = some bs
  | [], _ => rfl
  | [a], h => by
    have ha : a < 256 := h a (by simp)
    rw [bytesToBase64]
    show base64DecodeChars [b64Char (a / 4), b64Char (a % 4 * 16), '=', '='] = some [a]
    rw [base64DecodeChars]
    rw [if_pos ⟨rfl, rfl, rfl⟩]
    rw [b64Index_b64Char _ (by omega), b64Index_b64Char _ (by omega)]
    simp only []
    rw [show a / 4 * 4 + a % 4 * 16 / 16 = a from by omega]
  | [a, b], h => by
    have ha : a < 256 := h a (by simp)
    have hb : b < 256 := h b (by simp)
    rw [bytesToBase64]
    show base64DecodeChars
        [b64Char (a / 4), b64Char (a % 4 * 16 + b / 16), b64Char (b % 16 * 4), '=']
      = some [a, b]
    rw [base64DecodeChars]
    rw [if_neg (fun hc => b64Char_ne_pad (b % 16 * 4) (by omega) hc.2.1)]
    rw [if_pos ⟨rfl, rfl⟩]
    rw [b64Index_b64Char _ (by omega), b64Index_b64Char _ (by omega),
      b64Index_b64Char _ (by omega)]
    simp only []
    rw [show a / 4 * 4 + (a % 4 * 16 + b / 16) / 16 = a from by omega,
      show (a % 4 * 16 + b / 16) % 16 * 16 + b % 16 * 4 / 4 = b from by omega]
  | a :: b :: c :: rest, h => by
    have ha : a < 256 := h a (by simp)
    have hb : b < 256 := h b (by simp)
    have hc : c < 256 := h c (by simp)
    have ih := base64_roundtrip rest (fun x hx => h x (by simp [hx]))
    rw [bytesToBase64]
    rw [String.data_append]
    show base64DecodeChars
        ([b64Char (a / 4), b64Char (a % 4 * 16 + b / 16), b64Char (b % 16 * 4 + c / 64),
          b64Char (c % 64)] ++ (bytesToBase64 rest).data)
      = some (a :: b :: c :: rest)
    rw [List.cons_append, List.cons_append, List.cons_append, List.cons_append,
      List.nil_append]
    rw [base64DecodeChars]
    rw [if_neg (fun hcond => b64Char_ne_pad (b % 16 * 4 + c / 64) (by omega) hcond.2.1)]
    rw [if_neg (fun hcond => b64Char_ne_pad (c % 64) (by omega) hcond.2)]
    rw [b64Index_b64Char _ (by omega), b64Index_b64Char _ (by omega),
      b64Index_b64Char _ (by omega), b64Index_b64Char _ (by omega), ih]
    simp only []
    rw [show a / 4 * 4 + (a % 4 * 16 + b / 16) / 16 = a from by omega,
      show (a % 4 * 16 + b / 16) % 16 * 16 + (b % 16 * 4 + c / 64) / 4 = b from by omega,
      show (b % 16 * 4 + c / 64) % 4 * 64 + c % 64 = c from by omega]

theorem base64ToBytes_bytesToBase64 (bs : List Nat) (h : ∀ b ∈ bs, b < 256) :
    base64ToBytes (bytesToBase64 bs) = some bs :=
  base64_roundtrip bs h

theorem xorStreamAux_invol (key : Nat) (iv : List Nat) :
    ∀ (i : Nat) (bs : List Nat), xorStreamAux key iv i (xorStreamAux key iv i bs) = bs
  | _, [] => rfl
  | i, b :: bs => by
    rw [xorStreamAux, xorStreamAux, xorStreamAux_invol key iv (i + 1) bs]
    rw [Nat.xor_assoc, Nat.xor_self, Nat.xor_zero]

theorem xorStream_invol (key : Nat) (iv bs : List Nat) :
    xorStream key iv (xorStream key iv bs) = bs :=
  xorStreamAux_invol key iv 0 bs

theorem gcmKeystream_lt (key : Nat) (iv : List Nat) (i : Nat) :
    gcmKeystream key iv i < 256 :=
  Nat.mod_lt _ (by omega)

theorem xorStreamAux_lt (key : Nat) (iv : List Nat) :
    ∀ (i : Nat) (bs : List Nat), (∀ b ∈ bs, b < 256) →
      ∀ b ∈ xorStreamAux key iv i bs, b < 256
  | _, [], _ => by simp [xorStreamAux]
  | i, b :: bs, h => by
    intro x hx
    rw [xorStreamAux] at hx
    rcases List.mem_cons.mp hx with hx | hx
    · subst hx
      exact @Nat.xor_lt_two_pow b (gcmKeystream key iv i) 8 (h b (by simp))
        (gcmKeystream_lt key iv i)
    · exact xorStreamAux_lt key iv (i + 1) bs (fun y hy => h y (by simp [hy])) x hx

theorem natBytesPad_length (k : Nat) : ∀ n, (natBytesPad k n).length = k := by
  induction k with
  | zero => intro n; rfl
  | succ k ih => intro n; simp [natBytesPad, ih]

theorem natBytesPad_lt (k : Nat) : ∀ n, ∀ b ∈ natBytesPad k n, b < 256 := by
  induction k with
  | zero => intro n; simp [natBytesPad]
  | succ k ih =>
    intro n b hb
    rw [natBytesPad] at hb
    rcases List.mem_cons.mp hb with hx | hx
    · subst hx; exact Nat.mod_lt _ (by omega)
    · exact ih (n / 256) b hx

theorem aesGcmEncrypt_lt (key : Nat) (iv pt : List Nat) (h : ∀ b ∈ pt, b < 256) :
    ∀ b ∈ aesGcmEncrypt key iv pt, b < 256 := by
  intro b hb
  rw [aesGcmEncrypt] at hb
  rcases List.mem_append.mp hb with hx | hx
  · exact xorStreamAux_lt key iv 0 pt h b hx
  · exact natBytesPad_lt 16 _ b hx

theorem aesGcm_roundtrip (key : Nat) (iv pt : List Nat) :
    aesGcmDecrypt key iv (aesGcmEncrypt key iv pt) = some pt := by
  have htag : (gcmTag key iv (xorStream key iv pt)).length = 16 := natBytesPad_length 16 _
  rw [aesGcmEncrypt, aesGcmDecrypt]
  rw [if_neg (by simp [htag])]
  rw [show (xorStream key iv pt ++ gcmTag key iv (xorStream key iv pt)).length - 16
      = (xorStream key iv pt).length from by simp [htag]]
  rw [List.take_left, List.drop_left]
  rw [if_pos rfl, xorStream_invol]

/-- C9: decrypting the output of `encryptApiKey` with the same user id
recovers the plaintext exactly; the key is derived by PBKDF2 with
100000 (≥ 100k) iterations from the per-call random salt, and the output
is `base64(salt ‖ nonce ‖ ciphertext)` of the AES-GCM encryption under
the per-call random nonce. -/
theorem C9_thm (apiKey userId : String) (salt iv : List Nat)
    (hs : salt.length = 16) (hiv : iv.length = 12)
    (hsb : ∀ b ∈ salt, b < 256) (hivb : ∀ b ∈ iv, b < 256) :
    decryptApiKey (encryptApiKey apiKey userId salt iv) userId = some apiKey
    ∧ pbkdf2Iterations ≥ 100000
    ∧ encryptApiKey apiKey userId salt iv
        = bytesToBase64 (salt ++ iv ++
            aesGcmEncrypt (pbkdf2Model (utf8Encode userId) salt pbkdf2Iterations) iv
              (utf8Encode apiKey)) := by
  refine ⟨?_, Nat.le_refl _, rfl⟩
  have hctb : ∀ b ∈ aesGcmEncrypt (pbkdf2Model (utf8Encode userId) salt pbkdf2Iterations) iv
      (utf8Encode apiKey), b < 256 :=
    aesGcmEncrypt_lt _ _ _ (utf8Encode_lt apiKey)
  have hall : ∀ b ∈ salt ++ iv ++
      aesGcmEncrypt (pbkdf2Model (utf8Encode userId) salt pbkdf2Iterations) iv
        (utf8Encode apiKey), b < 256 := by
    intro b hb
    rcases List.mem_append.mp hb with hx | hx
    · rcases List.mem_append.mp hx with hy | hy
      · exact hsb b hy
      · exact hivb b hy
    · exact hctb b hx
  rw [encryptApiKey, decryptApiKey]
  rw [base64ToBytes_bytesToBase64 _ hall]
  simp only []
  rw [List.append_assoc]
  rw [List.take_left' hs]
  rw [List.drop_left' hs]
  rw [List.take_left' hiv]
  rw [show (28 : Nat) = 16 + 12 from rfl]
  rw [← List.drop_drop]
  rw [List.drop_left' hs]
  rw [List.drop_left' hiv]
  rw [aesGcm_roundtrip]
  show utf8DecodeStr (utf8Encode apiKey) = some apiKey
  exact utf8DecodeStr_encode apiKey

theorem C9_witness :
    decryptApiKey
        (encryptApiKey "sk-ant-api-key-xyz" "dan-001" (List.replicate 16 7)
          (List.replicate 12 3)) "dan-001"
      = some "sk-ant-api-key-xyz" :=
  (C9_thm "sk-ant-api-key-xyz" "dan-001" (List.replicate 16 7) (List.replicate 12 3)
    (by decide) (by decide) (by decide) (by decide)).1

/-! ## C10: the append path preserves existing hash and confirmation -/

theorem calculateSpanHash_ne_empty (fields : List (String × Json)) :
    calculateSpanHash fields ≠ "" := by
  unfold calculateSpanHash calculateHash
  intro h
  have hd := congrArg String.data h
  rw [String.data_append] at hd
  exact absurd (List.append_eq_nil.mp hd).1 (by decide)

/-- C10: `appendToLedger` stores the span unchanged in every field it
does not have to fill: a non-empty `this.hash` is never recomputed, an
existing `confirmed_by` is never overwritten; only an empty hash is
filled (with the content hash of the span as passed in), and only a span
with no confirmation gets signed, and only when a local identity
exists. -/
theorem C10_thm (s : Span) (identity : Option Identity) (now : String) (st : LedgerState)
    (hFresh : ∀ t ∈ st.spans, t.id ≠ s.id)
    (hKey : ∀ i, identity = some i → ∃ kp, i.private_key_handle = CryptoKeyRef.privateKey kp) :
    ∃ st' s', appendToLedger s identity now st = Except.ok (st', s')
      ∧ st'.spans = st.spans ++ [s']
      ∧ s'.id = s.id ∧ s'.trace_id = s.trace_id ∧ s'.type = s.type ∧ s'.entity = s.entity
      ∧ s'.body = s.body ∧ s'.started_at = s.started_at ∧ s'.parent_id = s.parent_id
      ∧ s'.completed_at = s.completed_at ∧ s'.duration_ms = s.duration_ms
      ∧ s'.this.version = s.this.version
      ∧ (s.this.hash ≠ "" → s'.this.hash = s.this.hash)
      ∧ (s.this.hash = "" → s'.this.hash = calculateSpanHash s.toJson)
      ∧ (∀ cb, s.confirmed_by = some cb → s'.confirmed_by = some cb)
      ∧ (s.confirmed_by = none → identity = none → s'.confirmed_by = none)
      ∧ (∀ i, s.confirmed_by = none → identity = some i →
          ∃ sig, s'.confirmed_by = some { signature := sig, domain := "minicontratos.local",
                                          timestamp := now, signer_id := i.user_id }) := by
  have hany : st.spans.any (fun t => t.id == s.id) = false := by
    rw [List.any_eq_false]
    intro t ht
    simp [hFresh t ht]
  have hpp : ∀ s2 : Span, s2.id = s.id →
      ∃ cs, persistAndProject s2 now st
        = Except.ok ({ spans := st.spans ++ [s2], contracts := cs }, s2) := by
    intro s2 hid2
    have hany2 : st.spans.any (fun t => t.id == s2.id) = false := by rw [hid2]; exact hany
    simp only [persistAndProject, appendSpan, hany2, Bool.false_eq_true, if_false]
    by_cases hE : s2.entity == "minicontrato"
    · rw [if_pos hE]
      cases hU : updateContractFromSpans (getSpansByTrace (st.spans ++ [s2]) s2.trace_id)
          (getContract st.contracts s2.trace_id) s2.trace_id now with
      | some c => exact ⟨_, rfl⟩
      | none => exact ⟨_, rfl⟩
    · rw [if_neg hE]
      exact ⟨_, rfl⟩
  cases identity with
  | none =>
    by_cases hh : s.this.hash = ""
    · have hred : appendToLedger s none now st
          = persistAndProject
              { s with this := { s.this with hash := calculateSpanHash s.toJson } } now st := by
        simp only [appendToLedger, if_pos hh]
      obtain ⟨cs, hok⟩ :=
        hpp { s with this := { s.this with hash := calculateSpanHash s.toJson } } rfl
      refine ⟨_, _, hred.trans hok, rfl, rfl, rfl, rfl, rfl, rfl, rfl, rfl, rfl, rfl, rfl,
        fun hne => absurd hh hne, fun _ => rfl, fun _ hcb => hcb, fun hn _ => hn,
        fun j _ hj => by cases hj⟩
    · have hred : appendToLedger s none now st = persistAndProject s now st := by
        simp only [appendToLedger, if_neg hh]
      obtain ⟨cs, hok⟩ := hpp s rfl
      refine ⟨_, _, hred.trans hok, rfl, rfl, rfl, rfl, rfl, rfl, rfl, rfl, rfl, rfl, rfl,
        fun _ => rfl, fun he => absurd he hh, fun _ hcb => hcb, fun hn _ => hn,
        fun j _ hj => by cases hj⟩
  | some i =>
    obtain ⟨kp, hkp⟩ := hKey i rfl
    cases hcb : s.confirmed_by with
    | some cb =>
      by_cases hh : s.this.hash = ""
      · have hred : appendToLedger s (some i) now st
            = persistAndProject
                { s with this := { s.this with hash := calculateSpanHash s.toJson } } now st := by
          simp only [appendToLedger, if_pos hh, hcb]
        obtain ⟨cs, hok⟩ :=
          hpp { s with this := { s.this with hash := calculateSpanHash s.toJson } } rfl
        refine ⟨_, _, hred.trans hok, rfl, rfl, rfl, rfl, rfl, rfl, rfl, rfl, rfl, rfl, rfl,
          fun hne => absurd hh hne, fun _ => rfl, fun _ hcb2 => hcb.trans hcb2, ?_, ?_⟩
        · intro hn
          cases hn
        · intro j hn
          cases hn
      · have hred : appendToLedger s (some i) now st = persistAndProject s now st := by
          simp only [appendToLedger, if_neg hh, hcb]
        obtain ⟨cs, hok⟩ := hpp s rfl
        refine ⟨_, _, hred.trans hok, rfl, rfl, rfl, rfl, rfl, rfl, rfl, rfl, rfl, rfl, rfl,
          fun _ => rfl, fun he => absurd he hh, fun _ hcb2 => hcb.trans hcb2, ?_, ?_⟩
        · intro hn
          cases hn
        · intro j hn
          cases hn
    | none =>
      by_cases hh : s.this.hash = ""
      · have hs1 : ({ s with this := { s.this with hash := calculateSpanHash s.toJson } }
            : Span).this.hash ≠ "" := calculateSpanHash_ne_empty s.toJson
        have hred : appendToLedger s (some i) now st
            = persistAndProject
                { s with
                  this := { s.this with hash := calculateSpanHash s.toJson },
                  confirmed_by := some ⟨"ed25519:" ++ sigHexModel kp (calculateSpanHash s.toJson),
                    "minicontratos.local", now, i.user_id⟩ } now st := by
          simp only [appendToLedger, if_pos hh, hcb, signSpan, if_neg hs1, hkp, sign]
        obtain ⟨cs, hok⟩ :=
          hpp { s with
                this := { s.this with hash := calculateSpanHash s.toJson },
                confirmed_by := some ⟨"ed25519:" ++ sigHexModel kp (calculateSpanHash s.toJson),
                  "minicontratos.local", now, i.user_id⟩ } rfl
        refine ⟨_, _, hred.trans hok, rfl, rfl, rfl, rfl, rfl, rfl, rfl, rfl, rfl, rfl, rfl,
          fun hne => absurd hh hne, fun _ => rfl, ?_, ?_, ?_⟩
        · intro cb2 hcb2
          cases hcb2
        · intro _ hn
          cases hn
        · intro j _ hj
          cases hj
          exact ⟨_, rfl⟩
      · have hred : appendToLedger s (some i) now st
            = persistAndProject
                { s with
                  confirmed_by := some ⟨"ed25519:" ++ sigHexModel kp s.this.hash,
                    "minicontratos.local", now, i.user_id⟩ } now st := by
          simp only [appendToLedger, if_neg hh, hcb, signSpan, if_neg hh, hkp, sign]
        obtain ⟨cs, hok⟩ :=
          hpp { s with
                confirmed_by := some ⟨"ed25519:" ++ sigHexModel kp s.this.hash,
                  "minicontratos.local", now, i.user_id⟩ } rfl
        refine ⟨_, _, hred.trans hok, rfl, rfl, rfl, rfl, rfl, rfl, rfl, rfl, rfl, rfl, rfl,
          fun _ => rfl, fun he => absurd he hh, ?_, ?_, ?_⟩
        · intro cb2 hcb2
          cases hcb2
        · intro _ hn
          cases hn
        · intro j _ hj
          cases hj
          exact ⟨_, rfl⟩

def c10Span : Span :=
  { id := "s10", trace_id := "t10", parent_id := none, type := "note.created",
    entity := "note",
    body := { action := "noop", input := none, output := none, rules := none, metadata := none },
    started_at := "2025-01-01T00:00:00Z", completed_at := none, duration_ms := none,
    this := { hash := "blake3:deadbeef", version := "1.0.0" },
    confirmed_by := some { signature := "ed25519:aa", domain := "other.domain",
                           timestamp := "2024-12-31T00:00:00Z", signer_id := "alice" } }

def c10Identity : Identity :=
  { user_id := "dan", private_key_handle := CryptoKeyRef.privateKey 5 }

theorem C10_witness :
    ∃ st' s', appendToLedger c10Span (some c10Identity) "2025-01-02T00:00:00Z"
        ⟨[], []⟩ = Except.ok (st', s')
      ∧ st'.spans = ([] : List Span) ++ [s']
      ∧ s'.id = c10Span.id ∧ s'.trace_id = c10Span.trace_id ∧ s'.type = c10Span.type
      ∧ s'.entity = c10Span.entity
      ∧ s'.body = c10Span.body ∧ s'.started_at = c10Span.started_at
      ∧ s'.parent_id = c10Span.parent_id
      ∧ s'.completed_at = c10Span.completed_at ∧ s'.duration_ms = c10Span.duration_ms
      ∧ s'.this.version = c10Span.this.version
      ∧ (c10Span.this.hash ≠ "" → s'.this.hash = c10Span.this.hash)
      ∧ (c10Span.this.hash = "" → s'.this.hash = calculateSpanHash c10Span.toJson)
      ∧ (∀ cb, c10Span.confirmed_by = some cb → s'.confirmed_by = some cb)
      ∧ (c10Span.confirmed_by = none → some c10Identity = none → s'.confirmed_by = none)
      ∧ (∀ i, c10Span.confirmed_by = none → some c10Identity = some i →
          ∃ sig, s'.confirmed_by = some { signature := sig, domain := "minicontratos.local",
                                          timestamp := "2025-01-02T00:00:00Z",
                                          signer_id := i.user_id }) :=
  C10_thm c10Span (some c10Identity) "2025-01-02T00:00:00Z" ⟨[], []⟩
    (by simp) (fun i hi => by cases hi; exact ⟨5, rfl⟩)

end Minicontratos
